import Mathlib

/-!
# Verification of the SD-JWT test-case generator and its protocol core

Shallow embedding of `src/scripts/generate.py` from the `sd-jwt` repository,
together with a model of the SD-JWT protocol core (Issuer / Holder / Verifier
engines).  The core library (`sd_jwt.issuer`, `sd_jwt.holder`,
`sd_jwt.verifier`, `sd_jwt.utils`) is not part of the provided sources, so the
engine definitions below are modelled from the specification; each such
definition carries a doc comment starting with `Modelled from the spec:`.
The definitions for `generate.py` itself are translated directly from the
Python source.
-/

namespace SDJWT

/-- JSON-like claim values, as handled by the Python code (dicts are modelled
as association lists in insertion order, mirroring Python's ordered dicts). -/
inductive Val where
  | vnull : Val
  | vbool (b : Bool) : Val
  | vnum (n : Int) : Val
  | vstr (s : String) : Val
  | varr (elems : List Val) : Val
  | vobj (entries : List (String × Val)) : Val
deriving Repr

mutual

def Val.deq : (a b : Val) → Decidable (a = b)
  | .vnull, .vnull => isTrue rfl
  | .vbool a, .vbool b =>
    match decEq a b with
    | isTrue h => isTrue (by rw [h])
    | isFalse h => isFalse (by intro hh; injection hh; contradiction)
  | .vnum a, .vnum b =>
    match decEq a b with
    | isTrue h => isTrue (by rw [h])
    | isFalse h => isFalse (by intro hh; injection hh; contradiction)
  | .vstr a, .vstr b =>
    match decEq a b with
    | isTrue h => isTrue (by rw [h])
    | isFalse h => isFalse (by intro hh; injection hh; contradiction)
  | .varr a, .varr b =>
    match Val.deqList a b with
    | isTrue h => isTrue (by rw [h])
    | isFalse h => isFalse (by intro hh; injection hh; contradiction)
  | .vobj a, .vobj b =>
    match Val.deqEnts a b with
    | isTrue h => isTrue (by rw [h])
    | isFalse h => isFalse (by intro hh; injection hh; contradiction)
  | .vnull, .vbool _ | .vnull, .vnum _ | .vnull, .vstr _ | .vnull, .varr _ | .vnull, .vobj _
  | .vbool _, .vnull | .vbool _, .vnum _ | .vbool _, .vstr _ | .vbool _, .varr _ | .vbool _, .vobj _
  | .vnum _, .vnull | .vnum _, .vbool _ | .vnum _, .vstr _ | .vnum _, .varr _ | .vnum _, .vobj _
  | .vstr _, .vnull | .vstr _, .vbool _ | .vstr _, .vnum _ | .vstr _, .varr _ | .vstr _, .vobj _
  | .varr _, .vnull | .varr _, .vbool _ | .varr _, .vnum _ | .varr _, .vstr _ | .varr _, .vobj _
  | .vobj _, .vnull | .vobj _, .vbool _ | .vobj _, .vnum _ | .vobj _, .vstr _ | .vobj _, .varr _ =>
    isFalse (by intro h; exact Val.noConfusion h)

def Val.deqList : (a b : List Val) → Decidable (a = b)
  | [], [] => isTrue rfl
  | _ :: _, [] => isFalse (by intro h; exact List.noConfusion h)
  | [], _ :: _ => isFalse (by intro h; exact List.noConfusion h)
  | a :: as, b :: bs =>
    match Val.deq a b, Val.deqList as bs with
    | isTrue h1, isTrue h2 => isTrue (by rw [h1, h2])
    | isFalse h1, _ => isFalse (by intro h; injection h; contradiction)
    | _, isFalse h2 => isFalse (by intro h; injection h; contradiction)

def Val.deqEnts : (a b : List (String × Val)) → Decidable (a = b)
  | [], [] => isTrue rfl
  | _ :: _, [] => isFalse (by intro h; exact List.noConfusion h)
  | [], _ :: _ => isFalse (by intro h; exact List.noConfusion h)
  | (k1, v1) :: as, (k2, v2) :: bs =>
    match decEq k1 k2, Val.deq v1 v2, Val.deqEnts as bs with
    | isTrue h0, isTrue h1, isTrue h2 => isTrue (by rw [h0, h1, h2])
    | isFalse h0, _, _ => isFalse (by intro h; injection h with hp ht; injection hp; contradiction)
    | _, isFalse h1, _ => isFalse (by intro h; injection h with hp ht; injection hp; contradiction)
    | _, _, isFalse h2 => isFalse (by intro h; injection h; contradiction)

end

instance : DecidableEq Val := Val.deq

/-- Modelled from the spec: a Disclosure is "the atomic unit representing one
selectively-disclosable claim: a random salt, a claim name (or array index
context), a claim value" (§2, §3).  Salts are modelled as naturals drawn from
a fresh counter (the model of "fresh random salt" / an entropy source). -/
structure Disclosure where
  salt : Nat
  key : Option String
  value : Val
deriving DecidableEq, Repr

/-- Modelled from the spec: a digest value.  The spec requires the digest to be
"a pure function of (salt, key, value); recomputation must be deterministic and
collision-free" (§3).  A collision-free hash is modelled as an injective
function, so a digest is represented by the encoded triple itself. -/
def Digest : Type := Disclosure

instance : DecidableEq Digest := inferInstanceAs (DecidableEq Disclosure)

instance : Repr Digest := inferInstanceAs (Repr Disclosure)

/-- Modelled from the spec: `digestOf(disclosure) -> DigestValue` (§4.1),
with the collision-free hash modelled as injective. -/
def digestOf (d : Disclosure) : Digest := d

/-- A path segment inside a claim tree (object key or array index). -/
inductive Seg where
  | key (s : String) : Seg
  | idx (n : Nat) : Seg
deriving DecidableEq, Repr

/-- Modelled from the spec: "a disclosure policy (which claims/paths become
selectively disclosable — top-level claims by default, recursively for nested
objects/arrays per configuration)" (§4.2). -/
structure Policy where
  objSel : List Seg → String → Bool
  arrSel : List Seg → Nat → Bool

/-- Modelled from the spec: the issued Claim Tree, in which "any subtree
selected for selective disclosure is replaced by a digest placeholder (using a
reserved structural marker...)" (§3).  For objects, "placeholders form a list
attached to the parent alongside remaining plain claims"; for arrays, "each
selectively-disclosable element becomes a placeholder-wrapped entry in-place"
(§4.2).  `ph` is the reserved structural marker for in-place (array)
placeholders; object placeholders sit in the `sd` list of `pobj`. -/
inductive PVal where
  | pnull : PVal
  | pbool (b : Bool) : PVal
  | pnum (n : Int) : PVal
  | pstr (s : String) : PVal
  | parr (elems : List PVal) : PVal
  | pobj (entries : List (String × PVal)) (sd : List Digest) : PVal
  | ph (d : Digest) : PVal
deriving Repr

mutual

def PVal.deq : (a b : PVal) → Decidable (a = b)
  | .pnull, .pnull => isTrue rfl
  | .pbool a, .pbool b =>
    match decEq a b with
    | isTrue h => isTrue (by rw [h])
    | isFalse h => isFalse (by intro hh; injection hh; contradiction)
  | .pnum a, .pnum b =>
    match decEq a b with
    | isTrue h => isTrue (by rw [h])
    | isFalse h => isFalse (by intro hh; injection hh; contradiction)
  | .pstr a, .pstr b =>
    match decEq a b with
    | isTrue h => isTrue (by rw [h])
    | isFalse h => isFalse (by intro hh; injection hh; contradiction)
  | .ph a, .ph b =>
    match (inferInstanceAs (DecidableEq Digest)) a b with
    | isTrue h => isTrue (by rw [h])
    | isFalse h => isFalse (by intro hh; injection hh; contradiction)
  | .parr a, .parr b =>
    match PVal.deqList a b with
    | isTrue h => isTrue (by rw [h])
    | isFalse h => isFalse (by intro hh; injection hh; contradiction)
  | .pobj a sa, .pobj b sb =>
    match PVal.deqEnts a b, (inferInstanceAs (DecidableEq (List Digest))) sa sb with
    | isTrue h1, isTrue h2 => isTrue (by rw [h1, h2])
    | isFalse h1, _ => isFalse (by intro hh; injection hh; contradiction)
    | _, isFalse h2 => isFalse (by intro hh; injection hh; contradiction)
  | .pnull, .pbool _ | .pnull, .pnum _ | .pnull, .pstr _ | .pnull, .parr _ | .pnull, .pobj _ _ | .pnull, .ph _
  | .pbool _, .pnull | .pbool _, .pnum _ | .pbool _, .pstr _ | .pbool _, .parr _ | .pbool _, .pobj _ _ | .pbool _, .ph _
  | .pnum _, .pnull | .pnum _, .pbool _ | .pnum _, .pstr _ | .pnum _, .parr _ | .pnum _, .pobj _ _ | .pnum _, .ph _
  | .pstr _, .pnull | .pstr _, .pbool _ | .pstr _, .pnum _ | .pstr _, .parr _ | .pstr _, .pobj _ _ | .pstr _, .ph _
  | .parr _, .pnull | .parr _, .pbool _ | .parr _, .pnum _ | .parr _, .pstr _ | .parr _, .pobj _ _ | .parr _, .ph _
  | .pobj _ _, .pnull | .pobj _ _, .pbool _ | .pobj _ _, .pnum _ | .pobj _ _, .pstr _ | .pobj _ _, .parr _ | .pobj _ _, .ph _
  | .ph _, .pnull | .ph _, .pbool _ | .ph _, .pnum _ | .ph _, .pstr _ | .ph _, .parr _ | .ph _, .pobj _ _ =>
    isFalse (by intro h; exact PVal.noConfusion h)

def PVal.deqList : (a b : List PVal) → Decidable (a = b)
  | [], [] => isTrue rfl
  | _ :: _, [] => isFalse (by intro h; exact List.noConfusion h)
  | [], _ :: _ => isFalse (by intro h; exact List.noConfusion h)
  | a :: as, b :: bs =>
    match PVal.deq a b, PVal.deqList as bs with
    | isTrue h1, isTrue h2 => isTrue (by rw [h1, h2])
    | isFalse h1, _ => isFalse (by intro h; injection h; contradiction)
    | _, isFalse h2 => isFalse (by intro h; injection h; contradiction)

def PVal.deqEnts : (a b : List (String × PVal)) → Decidable (a = b)
  | [], [] => isTrue rfl
  | _ :: _, [] => isFalse (by intro h; exact List.noConfusion h)
  | [], _ :: _ => isFalse (by intro h; exact List.noConfusion h)
  | (k1, v1) :: as, (k2, v2) :: bs =>
    match decEq k1 k2, PVal.deq v1 v2, PVal.deqEnts as bs with
    | isTrue h0, isTrue h1, isTrue h2 => isTrue (by rw [h0, h1, h2])
    | isFalse h0, _, _ => isFalse (by intro h; injection h with hp ht; injection hp; contradiction)
    | _, isFalse h1, _ => isFalse (by intro h; injection h with hp ht; injection hp; contradiction)
    | _, _, isFalse h2 => isFalse (by intro h; injection h; contradiction)

end

instance : DecidableEq PVal := PVal.deq

/-- Result of one selective-disclosure traversal step: the produced output,
the Disclosures generated so far (in generation order, §4.2), and the next
fresh salt-counter value. -/
structure SDOut (α : Type) where
  out : α
  ds : List Disclosure
  c : Nat
deriving Repr

mutual

/-- Modelled from the spec: the Issuer Engine's recursive traversal,
"recursively traverse the claim tree; for each claim selected by policy,
generate a Disclosure (fresh random salt), record its digest, and replace the
claim's position with a digest placeholder" (§4.2).  Values of disclosed
claims are carried verbatim in the Disclosure (§3: "revealed verbatim"). -/
def sdVal (pol : Policy) (path : List Seg) (c : Nat) : Val → SDOut PVal
  | .vnull => ⟨.pnull, [], c⟩
  | .vbool b => ⟨.pbool b, [], c⟩
  | .vnum n => ⟨.pnum n, [], c⟩
  | .vstr s => ⟨.pstr s, [], c⟩
  | .varr es =>
    let r := sdArr pol path 0 c es
    ⟨.parr r.out, r.ds, r.c⟩
  | .vobj es =>
    let r := sdEnts pol path c es
    ⟨.pobj r.out.1 r.out.2, r.ds, r.c⟩

/-- Modelled from the spec: array traversal, "for arrays, each
selectively-disclosable element becomes a placeholder-wrapped entry in-place
(preserving array order)" (§4.2). -/
def sdArr (pol : Policy) (path : List Seg) (i c : Nat) : List Val → SDOut (List PVal)
  | [] => ⟨[], [], c⟩
  | v :: vs =>
    if pol.arrSel path i then
      let d : Disclosure := ⟨c, none, v⟩
      let r := sdArr pol path (i + 1) (c + 1) vs
      ⟨.ph (digestOf d) :: r.out, d :: r.ds, r.c⟩
    else
      let r1 := sdVal pol (path ++ [.idx i]) c v
      let r2 := sdArr pol path (i + 1) r1.c vs
      ⟨r1.out :: r2.out, r1.ds ++ r2.ds, r2.c⟩

/-- Modelled from the spec: object traversal, "for objects, placeholders form
a list attached to the parent alongside remaining plain claims" (§4.2). -/
def sdEnts (pol : Policy) (path : List Seg) (c : Nat) :
    List (String × Val) → SDOut (List (String × PVal) × List Digest)
  | [] => ⟨([], []), [], c⟩
  | (k, v) :: es =>
    if pol.objSel path k then
      let d : Disclosure := ⟨c, some k, v⟩
      let r := sdEnts pol path (c + 1) es
      ⟨(r.out.1, digestOf d :: r.out.2), d :: r.ds, r.c⟩
    else
      let r1 := sdVal pol (path ++ [.key k]) c v
      let r2 := sdEnts pol path r1.c es
      ⟨((k, r1.out) :: r2.out.1, r2.out.2), r1.ds ++ r2.ds, r2.c⟩

end

/-- Modelled from the spec: "Decoys are added as extra digest placeholders with
no backing Disclosure", "computed over random salt+value pairs" (§3, §4.2).
The random salt/value pair is modelled as drawn from the fresh counter. -/
def decoyDigest (c : Nat) : Digest :=
  digestOf ⟨c, none, .vstr ("decoy-" ++ toString c)⟩

/-- Registered claim names that the Issuer Engine keeps as plain claims in the
payload: "Assemble final payload: registered claims + plain claims +
placeholders" (§4.2); the Verifier later reads `iss` from the payload (§4.4). -/
def registeredNames : List String := ["iss", "iat", "exp"]

/-- Restriction of a policy so that top-level registered claims stay plain;
the payload always carries the registered claims outside the placeholder
list (§3 Signed Object, §4.2). -/
def restrictRegistered (pol : Policy) : Policy where
  objSel := fun path k =>
    if path.isEmpty && registeredNames.contains k then false else pol.objSel path k
  arrSel := pol.arrSel

/-- Modelled from the spec: the Signed Object's payload, "Claim Tree with
placeholders + registered claims (issuer id, issued-at, expiry,
digest-algorithm identifier)" plus the Holder public key reference when
holder-binding is requested (§3, §4.2).  Keys are modelled as abstract numeric
identifiers; a public key equals its private counterpart's identifier. -/
structure SDPayload where
  claims : PVal
  sd_alg : String
  cnf : Option Nat
deriving DecidableEq, Repr

/-- Modelled from the spec: "Signed Object — { payload, signature: over payload
using Issuer key }" (§3).  The external signing primitive is out of scope
(§1), so a signature is modelled as the identifier of the signing key;
verification succeeds exactly when the resolved public key matches. -/
structure SignedObject where
  payload : SDPayload
  signerKey : Nat
deriving DecidableEq, Repr

/-- Modelled from the spec: "Combined Artifact — ordered concatenation: Signed
Object, then zero or more Disclosures" (§3); the issuance artifact carries
no Holder-Binding Object. -/
structure CombinedIssuance where
  signed : SignedObject
  disclosures : List Disclosure
deriving DecidableEq, Repr

/-- Serialization of a Disclosure (§6); the base64url/JSON encoding layer is
an out-of-scope collaborator (§1), so an injective textual rendering stands
in for it. -/
def serializeDisclosure (d : Disclosure) : String := toString (repr d)

/-- Serialization of a Signed Object (§6): compact three-part structure.
The encoding layer is out of scope (§1); a textual rendering stands in. -/
def serializeSignedObject (so : SignedObject) : String :=
  toString (repr so.payload) ++ "." ++ toString so.signerKey

/-- Serialization of the combined issuance artifact per the §6 grammar:
`SignedObject ('~' Disclosure)* ('~' HolderBindingObject)?`, with a dangling
trailing separator since issuance carries no Holder-Binding Object. -/
def serializeCombinedIssuance (ci : CombinedIssuance) : String :=
  serializeSignedObject ci.signed
    ++ String.join (ci.disclosures.map (fun d => "~" ++ serializeDisclosure d))
    ++ "~"

/-- The Issuer Engine's result object.  Field names follow the attributes of
the Python `SDJWTIssuer` object that `generate.py` reads
(`sd_jwt_payload`, `serialized_sd_jwt`, `combined_sd_jwt_iid`,
`decoy_digests`); `combined_sd_jwt_iid` is kept in structured form and
`combined_sd_jwt_iid_str` is its string rendering. -/
structure IssuerRun where
  sd_jwt_payload : SDPayload
  serialized_sd_jwt : String
  combined_sd_jwt_iid : CombinedIssuance
  combined_sd_jwt_iid_str : String
  ii_disclosures : List Disclosure
  decoy_digests : List Digest
deriving DecidableEq, Repr

/-- Modelled from the spec: the Issuer Engine (§4.2).  Walks the claim set,
replaces policy-selected claims by digest placeholders, generates the
Disclosure list, appends `decoyCount` decoy digests to the top-level
placeholder list, assembles and signs the payload, and serializes the
combined issuance artifact. -/
def issue (pol : Policy) (decoyCount saltBase : Nat) (claims : List (String × Val))
    (holder_pub : Option Nat) (issuer_key : Nat) : IssuerRun :=
  let r := sdEnts (restrictRegistered pol) [] saltBase claims
  let decoys := (List.range decoyCount).map (fun i => decoyDigest (r.c + i))
  let payload : SDPayload :=
    { claims := .pobj r.out.1 (r.out.2 ++ decoys), sd_alg := "sha-256", cnf := holder_pub }
  let signed : SignedObject := { payload := payload, signerKey := issuer_key }
  let combined : CombinedIssuance := { signed := signed, disclosures := r.ds }
  { sd_jwt_payload := payload
    serialized_sd_jwt := serializeSignedObject signed
    combined_sd_jwt_iid := combined
    combined_sd_jwt_iid_str := serializeCombinedIssuance combined
    ii_disclosures := r.ds
    decoy_digests := decoys }

/-- Modelled from the spec: the Holder-Binding Object's payload,
"{ nonce (Verifier-supplied, single-use), audience (intended Verifier
identifier), issued-at }" (§3). -/
structure HBPayload where
  nonce : String
  aud : String
  iat : Int
deriving DecidableEq, Repr

/-- Modelled from the spec: the Holder-Binding Object, signed "over payload
using Holder key" (§3); the signature is modelled as the signing key's
identifier, as for the Signed Object. -/
structure HBJwt where
  payload : HBPayload
  signerKey : Nat
deriving DecidableEq, Repr

/-- Modelled from the spec: the combined presentation artifact, "Signed
Object, then zero or more Disclosures, then optionally the Holder-Binding
Object" (§3). -/
structure CombinedPresentation where
  signed : SignedObject
  disclosures : List Disclosure
  hb : Option HBJwt
deriving DecidableEq, Repr

/-- Serialization of a Holder-Binding Object (§6); encoding layer out of
scope, textual rendering stands in. -/
def serializeHBJwt (h : HBJwt) : String :=
  toString (repr h.payload) ++ "." ++ toString h.signerKey

/-- Serialization of the combined presentation per the §6 grammar; "trailing
empty segment conventionally indicates no Holder-Binding Object". -/
def serializeCombinedPresentation (cp : CombinedPresentation) : String :=
  serializeSignedObject cp.signed
    ++ String.join (cp.disclosures.map (fun d => "~" ++ serializeDisclosure d))
    ++ (match cp.hb with
        | some h => "~" ++ serializeHBJwt h
        | none => "~")

/-- Holder-side failures (§4.3). -/
inductive HErr where
  | UnknownClaimSelectedError : HErr
  | MissingBindingKeyError : HErr
deriving DecidableEq, Repr

/-- The Holder Engine's result object.  Field names follow the attributes of
the Python `SDJWTHolder` object that `generate.py` reads
(`combined_presentation`, `holder_binding_jwt_payload`,
`serialized_holder_binding_jwt`, `_hash_to_decoded_disclosure`,
`_hash_to_disclosure`); `combined_presentation` is kept in structured form
and `combined_presentation_str` is its string rendering. -/
structure HolderRun where
  combined_presentation : CombinedPresentation
  combined_presentation_str : String
  holder_binding_jwt_payload : Option HBPayload
  serialized_holder_binding_jwt : Option String
  hash_to_decoded_disclosure : List (Digest × Disclosure)
  hash_to_disclosure : List (Digest × String)
deriving DecidableEq, Repr

/-- Modelled from the spec: the Holder Engine (§4.3).  Parses the issuance
artifact into Signed Object and full Disclosure set, filters "the Disclosure
set to exactly those matching the selection" (the selection is modelled as a
predicate over Disclosures, so it can never reference a claim with no
matching Disclosure), builds and signs a Holder-Binding Object over
`{nonce, audience, issued-at}` when nonce, audience and Holder key are
supplied, and fails with `MissingBindingKeyError` "if the artifact demands
holder-binding but no Holder key is supplied".  Disclosure order is
preserved relative to issuance order. -/
def create_presentation (ci : CombinedIssuance) (sel : Disclosure → Bool)
    (nonce aud : Option String) (holder_key : Option Nat) (hbIat : Int) :
    Except HErr HolderRun :=
  if ci.signed.payload.cnf.isSome && holder_key.isNone then
    .error .MissingBindingKeyError
  else
    let filtered := ci.disclosures.filter sel
    let hb : Option HBJwt :=
      match nonce, aud, holder_key with
      | some n, some a, some k => some ⟨⟨n, a, hbIat⟩, k⟩
      | _, _, _ => none
    let cp : CombinedPresentation := ⟨ci.signed, filtered, hb⟩
    .ok { combined_presentation := cp
          combined_presentation_str := serializeCombinedPresentation cp
          holder_binding_jwt_payload := hb.map (·.payload)
          serialized_holder_binding_jwt := hb.map serializeHBJwt
          hash_to_decoded_disclosure := ci.disclosures.map (fun d => (digestOf d, d))
          hash_to_disclosure := ci.disclosures.map (fun d => (digestOf d, serializeDisclosure d)) }

/-- Verifier-side failures (§7), plus the propagated exception of the
issuer-key resolution callback (§4.4 resolves the Issuer key "via the
callback"; a callback failure aborts verification). -/
inductive VErr where
  | EncodingError : VErr
  | InvalidSignatureError : VErr
  | UnresolvedDigestError : VErr
  | DuplicateDigestError : VErr
  | ExpiredCredentialError : VErr
  | NotYetValidError : VErr
  | HolderBindingError : VErr
  | MissingBindingError : VErr
  | CallbackError (msg : String) : VErr
deriving DecidableEq, Repr

/-- Modelled from the spec: `buildIndex(disclosures) -> Mapping<DigestValue,
Disclosure>` (§4.1) as a lookup function; the duplicate-digest check is done
by the Verifier before resolution (§4.4 step 4). -/
def mkIndex (ds : List Disclosure) : Digest → Option Disclosure :=
  fun d => ds.find? (fun x => decide (digestOf x = d))

mutual

/-- Modelled from the spec: the Verifier's recursive reconstruction walk,
"recursively walk the payload's claim tree, replacing every digest
placeholder with the matching Disclosure's revealed value — a placeholder
with no index entry yields `UnresolvedDigestError`" (§4.4 step 5). -/
def rsVal (idx : Digest → Option Disclosure) : PVal → Except VErr Val
  | .pnull => .ok .vnull
  | .pbool b => .ok (.vbool b)
  | .pnum n => .ok (.vnum n)
  | .pstr s => .ok (.vstr s)
  | .ph d =>
    match idx d with
    | some dis => .ok dis.value
    | none => .error .UnresolvedDigestError
  | .parr es =>
    match rsArr idx es with
    | .ok vs => .ok (.varr vs)
    | .error e => .error e
  | .pobj ents sd =>
    match rsEnts idx ents with
    | .error e => .error e
    | .ok rents =>
      match rsSd idx sd with
      | .error e => .error e
      | .ok dents => .ok (.vobj (rents ++ dents))

/-- Array elements reconstruct in place, preserving original array order. -/
def rsArr (idx : Digest → Option Disclosure) : List PVal → Except VErr (List Val)
  | [] => .ok []
  | p :: ps =>
    match rsVal idx p with
    | .error e => .error e
    | .ok v =>
      match rsArr idx ps with
      | .error e => .error e
      | .ok vs => .ok (v :: vs)

/-- Plain object entries reconstruct recursively. -/
def rsEnts (idx : Digest → Option Disclosure) :
    List (String × PVal) → Except VErr (List (String × Val))
  | [] => .ok []
  | (k, p) :: es =>
    match rsVal idx p with
    | .error e => .error e
    | .ok v =>
      match rsEnts idx es with
      | .error e => .error e
      | .ok vs => .ok ((k, v) :: vs)

/-- Object placeholder-list entries: an entry whose digest matches a disclosed
Disclosure contributes that Disclosure's claim; an entry with no match is a
withheld claim or a decoy and is "simply ignored" (§4.4 step 5 — decoys are
never placed at positions the walk must resolve).  A matched Disclosure with
no claim name cannot be attached to an object and is malformed. -/
def rsSd (idx : Digest → Option Disclosure) :
    List Digest → Except VErr (List (String × Val))
  | [] => .ok []
  | d :: sd =>
    match idx d with
    | none => rsSd idx sd
    | some dis =>
      match dis.key with
      | none => .error .EncodingError
      | some k =>
        match rsSd idx sd with
        | .error e => .error e
        | .ok vs => .ok ((k, dis.value) :: vs)

end

/-- Modelled from the spec: registered temporal-claim checks, "`exp` not
passed, `iat` sane — configurable tolerance" (§4.4 step 3).  The check is
applied against a caller clock when one is supplied; `generate.py` supplies
none. -/
def temporalCheck (ents : List (String × PVal)) (now : Option Int) : Except VErr Unit :=
  match now with
  | none => .ok ()
  | some t =>
    match ents.lookup "exp" with
    | some (.pnum e) =>
      if e ≤ t then .error .ExpiredCredentialError
      else
        match ents.lookup "iat" with
        | some (.pnum i) => if t < i then .error .NotYetValidError else .ok ()
        | _ => .ok ()
    | _ => .ok ()

/-- Modelled from the spec: Holder-Binding verification (§4.4 step 6): when a
Holder-Binding Object is present, verify its signature against the Holder
public key referenced in the Signed Object's payload and check that nonce
and audience match the caller-supplied expected values (mismatch is
`HolderBindingError`); when binding is required (expected audience or nonce
supplied) but absent, `MissingBindingError`. -/
def checkBinding (cp : CombinedPresentation) (expAud expNonce : Option String) :
    Except VErr Unit :=
  match cp.hb with
  | none =>
    if expAud.isSome || expNonce.isSome then .error .MissingBindingError else .ok ()
  | some h =>
    match cp.signed.payload.cnf with
    | none => .error .HolderBindingError
    | some hpk =>
      if h.signerKey = hpk ∧ expNonce = some h.payload.nonce ∧ expAud = some h.payload.aud
      then .ok () else .error .HolderBindingError

/-- Modelled from the spec: the Verifier Engine (§4.4), in order: resolve the
Issuer key via the callback using the `iss` registered claim of the payload
and verify the Signed Object's signature; check temporal claims; build the
Digest Index "requiring no duplicate digests"; recursively resolve the claim
tree; verify the Holder-Binding Object when present or required.  Every
failure is terminal: the caller receives either a fully verified claim set
or an error (§7). -/
def get_verified_payload (cp : CombinedPresentation)
    (cb : String → Except String Nat) (expAud expNonce : Option String)
    (now : Option Int) : Except VErr Val :=
  match cp.signed.payload.claims with
  | .pobj ents sd =>
    match ents.lookup "iss" with
    | some (.pstr iss) =>
      (match cb iss with
       | .error e => .error (.CallbackError e)
       | .ok pk =>
         if pk = cp.signed.signerKey then
           match temporalCheck ents now with
           | .error e => .error e
           | .ok _ =>
             if (cp.disclosures.map digestOf).Nodup then
               match rsVal (mkIndex cp.disclosures) (.pobj ents sd) with
               | .error e => .error e
               | .ok v =>
                 match checkBinding cp expAud expNonce with
                 | .error e => .error e
                 | .ok _ => .ok v
             else .error .DuplicateDigestError
         else .error .InvalidSignatureError)
    | _ => .error .EncodingError
  | _ => .error .EncodingError

/-! ## Claim-set equality

Python compares verified results and claim sets with `==` on dicts, which is
insensitive to key order.  `vnorm` canonicalizes a claim value by recursively
sorting object entries by key, so `vnorm a = vnorm b` is exactly dict
equality for well-formed (duplicate-free) values. -/

/-- Order on object entries by key, used for canonicalization. -/
def keyLE (a b : String × Val) : Prop := a.1 ≤ b.1

instance : DecidableRel keyLE := fun a b => inferInstanceAs (Decidable (a.1 ≤ b.1))

instance : IsTotal (String × Val) keyLE := ⟨fun a b => le_total a.1 b.1⟩

instance : IsTrans (String × Val) keyLE := ⟨fun _ _ _ h1 h2 => le_trans h1 h2⟩

/-- Strict key order on object entries. -/
def keyLT (a b : String × Val) : Prop := a.1 < b.1

instance : IsAntisymm (String × Val) keyLT :=
  ⟨fun _ _ h1 h2 => absurd h1 (lt_asymm h2)⟩

/-- Sort object entries by key. -/
def sortEnts (l : List (String × Val)) : List (String × Val) := l.insertionSort keyLE

mutual

/-- Canonical form of a claim value: object entries sorted by key,
recursively.  `vnorm a = vnorm b` models Python dict equality `a == b`. -/
def vnorm : Val → Val
  | .vnull => .vnull
  | .vbool b => .vbool b
  | .vnum n => .vnum n
  | .vstr s => .vstr s
  | .varr es => .varr (normList es)
  | .vobj es => .vobj (sortEnts (normEnts es))

def normList : List Val → List Val
  | [] => []
  | v :: vs => vnorm v :: normList vs

def normEnts : List (String × Val) → List (String × Val)
  | [] => []
  | (k, v) :: es => (k, vnorm v) :: normEnts es

end

mutual

/-- Well-formedness of a claim value: object keys are duplicate-free at every
level, as is automatic for values coming from Python dicts / parsed YAML. -/
def wfB : Val → Bool
  | .vnull => true
  | .vbool _ => true
  | .vnum _ => true
  | .vstr _ => true
  | .varr es => wfListB es
  | .vobj es => decide ((es.map Prod.fst).Nodup) && wfEntsB es

def wfListB : List Val → Bool
  | [] => true
  | v :: vs => wfB v && wfListB vs

def wfEntsB : List (String × Val) → Bool
  | [] => true
  | (_, v) :: es => wfB v && wfEntsB es

end

/-- Structural induction for `Val` with member hypotheses for the nested
lists. -/
def Val.inductionOn {P : Val → Prop}
    (h0 : P .vnull) (h1 : ∀ b, P (.vbool b)) (h2 : ∀ n, P (.vnum n))
    (h3 : ∀ s, P (.vstr s))
    (h4 : ∀ es, (∀ v, v ∈ es → P v) → P (.varr es))
    (h5 : ∀ es, (∀ k v, (k, v) ∈ es → P v) → P (.vobj es)) :
    (v : Val) → P v
  | .vnull => h0
  | .vbool b => h1 b
  | .vnum n => h2 n
  | .vstr s => h3 s
  | .varr es => h4 es (fun v hv =>
      have : sizeOf v < 1 + sizeOf es := by
        have := List.sizeOf_lt_of_mem hv
        omega
      Val.inductionOn h0 h1 h2 h3 h4 h5 v)
  | .vobj es => h5 es (fun k v hv =>
      have : sizeOf v < 1 + sizeOf es := by
        have h := List.sizeOf_lt_of_mem hv
        simp only [Prod.mk.sizeOf_spec] at h
        omega
      Val.inductionOn h0 h1 h2 h3 h4 h5 v)
termination_by v => sizeOf v

/-! ## Embedding of `src/scripts/generate.py` -/

/-- The settings loaded from `settings.yml` (`generate.py` reads
`settings["identifiers"]["issuer"]`, `settings["identifiers"]["verifier"]`,
`settings["iat"]`, `settings["exp"]`, `settings["holder_binding_nonce"]`,
`settings["random_seed"]`).  `decoy_count` models the number of decoy digests
the library injects when `add_decoy_claims` is set (the library's
decoy-count policy is not part of the provided sources). -/
structure Settings where
  issuer : String
  verifier : String
  iat : Int
  exp : Int
  holder_binding_nonce : String
  random_seed : Nat
  decoy_count : Nat

/-- One test case loaded from a `specification.yml` (`generate.py` reads
`testcase["user_claims"]`, `testcase["holder_disclosed_claims"]`,
`testcase.get("holder_binding", False)`,
`testcase.get("add_decoy_claims", False)`).  The Holder's disclosure
selection is modelled as a predicate over Disclosures. -/
structure Testcase where
  user_claims : List (String × Val)
  holder_disclosed_claims : Disclosure → Bool
  holder_binding : Bool
  add_decoy_claims : Bool

/-- Modelled from the spec: key generation (`get_jwk` of
`sd_jwt.utils.demo_utils`, not part of the provided sources) is an
out-of-scope collaborator (§1); with deterministic seeding it derives the
demo key pairs from the seed.  A public key carries the same identifier as
its private counterpart. -/
structure DemoKeys where
  issuer_key : Nat
  issuer_public_key : Nat
  holder_key : Nat
deriving DecidableEq, Repr

/-- Modelled from the spec: `get_jwk(settings["key_settings"], True, seed)`
with deterministic seeding. -/
def get_jwk (seed : Nat) : DemoKeys :=
  { issuer_key := seed + 1, issuer_public_key := seed + 1, holder_key := seed + 2 }

/-- The process-wide state of the Python module: `SDJWTIssuer.unsafe_randomness`
is a class-level attribute that `generate.py` line 45 assigns. -/
structure GlobalState where
  unsafe_randomness : Bool
deriving DecidableEq, Repr

/-- Modelled from the spec: the library's default disclosure policy,
"top-level claims by default" (§4.2): every top-level claim is selectively
disclosable, nothing below is, and no array elements are. -/
def defaultPolicy : Policy where
  objSel := fun path _ => path.isEmpty
  arrSel := fun _ _ => false

/-- Python `dict.update` on insertion-ordered dicts (association lists):
existing keys keep their position and receive the updating value; new keys
are appended in order. -/
def dictUpdate (base upd : List (String × Val)) : List (String × Val) :=
  base.map (fun kv => (kv.1, (upd.lookup kv.1).getD kv.2))
    ++ upd.filter (fun kv => !((base.map Prod.fst).contains kv.1))

/-- `generate.py` lines 36–42: the claim set handed to the Issuer Engine is
the registered base `{iss, iat, exp}` updated with the test case's user
claims. -/
def mergedClaims (settings : Settings) (user : List (String × Val)) : List (String × Val) :=
  dictUpdate
    [("iss", .vstr settings.issuer), ("iat", .vnum settings.iat), ("exp", .vnum settings.exp)]
    user

/-- `generate.py` lines 71–76: the issuer-key resolution callback.  It closes
over the merged claim set; it returns the issuer public key when the queried
issuer equals `claims["iss"]` and raises (modelled as `Except.error`)
otherwise.  A non-string `claims["iss"]` compares unequal to every queried
string, as in Python. -/
def cb_get_issuer_key (claims : List (String × Val)) (demo_keys : DemoKeys)
    (issuer : String) : Except String Nat :=
  if claims.lookup "iss" = some (.vstr issuer) then .ok demo_keys.issuer_public_key
  else .error ("Unknown issuer: " ++ issuer)

/-- The `type` positional argument of `generate.py` (lines 196–201). -/
inductive GType where
  | testcase : GType
  | example : GType
deriving DecidableEq, Repr

/-- The data element of a `_artifacts` entry (Python is dynamically typed;
the artifact values that actually occur are enumerated). -/
inductive AData where
  | jsonVal (v : Val) : AData
  | payloadD (p : SDPayload) : AData
  | txtD (s : String) : AData
  | txtOptD (s : Option String) : AData
  | hbD (h : Option HBPayload) : AData
  | digestsD (ds : List Digest) : AData
  | mdD (s : String) : AData
deriving DecidableEq, Repr

/-- The Markdown/text formatting helpers of `sd_jwt.utils.formatting` are
out-of-scope collaborators (§1); they are passed in as opaque functions. -/
structure Formatting where
  format_for_example : AData → String → String
  format_for_testcase : AData → String → String
  markdown_disclosures : List (Digest × Disclosure) → List (Digest × String) → String
  markdown_decoy_digests : List Digest → String

/-- An exception escaping `generate_test_case_data`: either a Holder-side or
a Verifier-side failure. -/
inductive GErr where
  | holderError (e : HErr) : GErr
  | verifierError (e : VErr) : GErr
deriving DecidableEq, Repr

/-- `generate.py` lines 92–157: the `_artifacts` dict, in insertion order.
Each entry's payload is a 3-tuple `(data, description, ftype)`; the tuple is
modelled inside `Option` because the writing loop (lines 172–174) tests the
whole tuple against `None` — a test no entry ever satisfies, since every
entry stores a tuple (possibly containing `None` as its data element). -/
def artifactsOf (ty : GType) (use_decoys : Bool) (tc : Testcase)
    (iRun : IssuerRun) (hRun : HolderRun) (verified : Val) (fmt : Formatting) :
    List (String × Option (AData × String × String)) :=
  [ ("user_claims", some (.jsonVal (.vobj tc.user_claims), "User Claims", "json")),
    ("sd_jwt_payload",
      some (.payloadD iRun.sd_jwt_payload, "Payload of the SD-JWT", "json")),
    ("sd_jwt_serialized",
      some (.txtD iRun.serialized_sd_jwt, "Serialized SD-JWT", "txt")),
    ("combined_issuance",
      some (.txtD iRun.combined_sd_jwt_iid_str, "Combined SD-JWT and Disclosures", "txt")),
    ("hb_jwt_payload",
      some (.hbD (if tc.holder_binding then hRun.holder_binding_jwt_payload else none),
            "Payload of the Holder Binding JWT", "json")),
    ("hb_jwt_serialized",
      some (.txtOptD hRun.serialized_holder_binding_jwt,
            "Serialized Holder Binding JWT", "txt")),
    ("combined_presentation",
      some (.txtD hRun.combined_presentation_str,
            "Combined representation of SD-JWT and HS-Disclosures", "txt")),
    ("verified_contents",
      some (.jsonVal verified, "Verified released contents of the SD-JWT", "json")) ]
  ++ (match ty with
      | .example =>
        [("disclosures",
          some (.mdD (fmt.markdown_disclosures hRun.hash_to_decoded_disclosure
                        hRun.hash_to_disclosure),
                "Payloads of the II-Disclosures", "md"))]
      | .testcase => [])
  ++ (if use_decoys then
        match ty with
        | .example =>
          [("decoy_digests",
            some (.mdD (fmt.markdown_decoy_digests iRun.decoy_digests), "Decoy Claims", "md"))]
        | .testcase =>
          [("decoy_digests",
            some (.digestsD iRun.decoy_digests, "Decoy Claims", "json"))]
      else [])

/-- `generate.py` lines 166–170: the formatter selected by `type`. -/
def formatterOf (ty : GType) (fmt : Formatting) : AData → String → String :=
  match ty with
  | .example => fmt.format_for_example
  | .testcase => fmt.format_for_testcase

/-- `generate.py` lines 172–179: the writing loop.  An entry is skipped only
when the whole `(data, description, ftype)` tuple is `None`; otherwise the
file `key.ftype` is written with the formatted data. -/
def writeArtifacts (formatter : AData → String → String)
    (arts : List (String × Option (AData × String × String))) :
    List (String × String) :=
  arts.filterMap (fun kv =>
    match kv.2 with
    | none => none
    | some (data, _, ftype) => some (kv.1 ++ "." ++ ftype, formatter data ftype))

/-- The issuance stage of `generate_test_case_data` (lines 44–51), with the
class-level `unsafe_randomness` flag made explicit: the salt source is the
deterministic seed when the flag is set and the external entropy source
otherwise (the flag's effect on the library's randomness is modelled from
the spec, §4.2 "fresh random salt"). -/
def issuerStage (flag : Bool) (settings : Settings) (tc : Testcase) (entropy : Nat) :
    IssuerRun :=
  let demo_keys := get_jwk settings.random_seed
  issue defaultPolicy
    (if tc.add_decoy_claims then settings.decoy_count else 0)
    (if flag then settings.random_seed else entropy)
    (mergedClaims settings tc.user_claims)
    (if tc.holder_binding then some demo_keys.holder_key else none)
    demo_keys.issuer_key

/-- The presentation stage of `generate_test_case_data` (lines 55–65): the
Holder Engine is constructed from the Issuer Engine's combined issuance
artifact alone, and nonce, audience and Holder key are passed only when the
test case enables holder binding. -/
def holderStage (settings : Settings) (tc : Testcase) (iRun : IssuerRun) :
    Except HErr HolderRun :=
  create_presentation iRun.combined_sd_jwt_iid tc.holder_disclosed_claims
    (if tc.holder_binding then some settings.holder_binding_nonce else none)
    (if tc.holder_binding then some settings.verifier else none)
    (if tc.holder_binding then some (get_jwk settings.random_seed).holder_key else none)
    settings.iat

/-- The verification stage of `generate_test_case_data` (lines 78–88): the
Verifier Engine consumes the Holder Engine's combined presentation artifact
alone, with the issuer-key callback closing over the merged claims, and
expected audience/nonce only when the test case enables holder binding. -/
def verifierStage (settings : Settings) (tc : Testcase) (hRun : HolderRun) :
    Except VErr Val :=
  get_verified_payload hRun.combined_presentation
    (cb_get_issuer_key (mergedClaims settings tc.user_claims) (get_jwk settings.random_seed))
    (if tc.holder_binding then some settings.verifier else none)
    (if tc.holder_binding then some settings.holder_binding_nonce else none)
    none

/-- Everything `generate_test_case_data` produces for one test case. -/
structure GenOutput where
  issuer_run : IssuerRun
  holder_run : HolderRun
  verified : Val
  artifacts : List (String × Option (AData × String × String))
  files : List (String × String)

/-- `generate.py` lines 28–179, `generate_test_case_data`: sets the
class-level `SDJWTIssuer.unsafe_randomness` flag (line 45), issues, builds
the presentation from the combined issuance artifact, verifies the combined
presentation, assembles `_artifacts` and writes the files.  The first
component of the result is the process-wide state after the call. -/
def generate_test_case_data (gs : GlobalState) (settings : Settings) (tc : Testcase)
    (ty : GType) (fmt : Formatting) (entropy : Nat) :
    GlobalState × Except GErr GenOutput :=
  let gs' : GlobalState := { gs with unsafe_randomness := true }
  let iRun := issuerStage gs'.unsafe_randomness settings tc entropy
  (gs',
    match holderStage settings tc iRun with
    | .error e => .error (.holderError e)
    | .ok hRun =>
      match verifierStage settings tc hRun with
      | .error e => .error (.verifierError e)
      | .ok verified =>
        let arts := artifactsOf ty tc.add_decoy_claims tc iRun hRun verified fmt
        .ok { issuer_run := iRun
              holder_run := hRun
              verified := verified
              artifacts := arts
              files := writeArtifacts (formatterOf ty fmt) arts })

/-! ## Helper definitions for the statements and proofs -/

/-- Composition of the Holder and Verifier stages on a combined-issuance
artifact: present, then verify. -/
def presentAndVerify (ci : CombinedIssuance) (sel : Disclosure → Bool)
    (nonce aud : Option String) (holder_key : Option Nat) (hbIat : Int)
    (cb : String → Except String Nat) (expAud expNonce : Option String)
    (now : Option Int) : Except GErr Val :=
  match create_presentation ci sel nonce aud holder_key hbIat with
  | .error e => .error (.holderError e)
  | .ok hRun =>
    match get_verified_payload hRun.combined_presentation cb expAud expNonce now with
    | .error e => .error (.verifierError e)
    | .ok v => .ok v

/-- Salt bookkeeping: the disclosures `ds` were generated while the fresh-salt
counter ran from `c` to `c'`; their salts are strictly increasing and lie in
`[c, c')`. -/
def SaltOK (c : Nat) (ds : List Disclosure) (c' : Nat) : Prop :=
  c ≤ c' ∧ (∀ d ∈ ds, c ≤ d.salt ∧ d.salt < c') ∧
    List.Pairwise (fun a b : Disclosure => a.salt < b.salt) ds

/-- Concrete settings used by witnesses (the shape of `settings.yml`). -/
def sampleSettings : Settings :=
  { issuer := "https://example.com/issuer"
    verifier := "https://example.com/verifier"
    iat := 1516239022
    exp := 1516247022
    holder_binding_nonce := "XZOUco1u_gEPknxS78sWWg"
    random_seed := 0
    decoy_count := 3 }

/-- Concrete black-box formatting helpers used by witnesses. -/
def sampleFormatting : Formatting :=
  { format_for_example := fun _ _ => "example"
    format_for_testcase := fun _ _ => "testcase"
    markdown_disclosures := fun _ _ => "disclosures"
    markdown_decoy_digests := fun _ => "decoys" }

/-- Concrete test case used by witnesses: no holder binding, no decoys. -/
def sampleTestcase : Testcase :=
  { user_claims := [("sub", .vstr "6c5c0a49-b589-431d-bae7-219122a9ec2c"),
                    ("given_name", .vstr "John"), ("family_name", .vstr "Doe")]
    holder_disclosed_claims := fun _ => true
    holder_binding := false
    add_decoy_claims := false }

/-- Concrete test case with holder binding and decoys, used by witnesses. -/
def sampleTestcaseHB : Testcase :=
  { sampleTestcase with holder_binding := true, add_decoy_claims := true }

/-- Concrete test case whose user claims override the registered `iss`. -/
def overrideTestcase : Testcase :=
  { sampleTestcase with
    user_claims := [("iss", .vstr "https://other.example/issuer"),
                    ("given_name", .vstr "Erika")] }

/-! ## Unfolding lemmas for the mutual recursions -/

theorem sdVal_vnull (pol : Policy) (path : List Seg) (c : Nat) :
    sdVal pol path c .vnull = ⟨.pnull, [], c⟩ := by rw [sdVal]

theorem sdVal_vbool (pol : Policy) (path : List Seg) (c : Nat) (b : Bool) :
    sdVal pol path c (.vbool b) = ⟨.pbool b, [], c⟩ := by rw [sdVal]

theorem sdVal_vnum (pol : Policy) (path : List Seg) (c : Nat) (n : Int) :
    sdVal pol path c (.vnum n) = ⟨.pnum n, [], c⟩ := by rw [sdVal]

theorem sdVal_vstr (pol : Policy) (path : List Seg) (c : Nat) (s : String) :
    sdVal pol path c (.vstr s) = ⟨.pstr s, [], c⟩ := by rw [sdVal]

theorem sdVal_varr (pol : Policy) (path : List Seg) (c : Nat) (es : List Val) :
    sdVal pol path c (.varr es) =
      ⟨.parr (sdArr pol path 0 c es).out, (sdArr pol path 0 c es).ds,
        (sdArr pol path 0 c es).c⟩ := by rw [sdVal]

theorem sdVal_vobj (pol : Policy) (path : List Seg) (c : Nat) (es : List (String × Val)) :
    sdVal pol path c (.vobj es) =
      ⟨.pobj (sdEnts pol path c es).out.1 (sdEnts pol path c es).out.2,
        (sdEnts pol path c es).ds, (sdEnts pol path c es).c⟩ := by rw [sdVal]

theorem sdArr_nil (pol : Policy) (path : List Seg) (i c : Nat) :
    sdArr pol path i c [] = ⟨[], [], c⟩ := by rw [sdArr]

theorem sdArr_cons_sel (pol : Policy) (path : List Seg) (i c : Nat) (v : Val)
    (vs : List Val) (h : pol.arrSel path i = true) :
    sdArr pol path i c (v :: vs) =
      ⟨.ph (digestOf ⟨c, none, v⟩) :: (sdArr pol path (i + 1) (c + 1) vs).out,
        ⟨c, none, v⟩ :: (sdArr pol path (i + 1) (c + 1) vs).ds,
        (sdArr pol path (i + 1) (c + 1) vs).c⟩ := by
  rw [sdArr]; simp [h]

theorem sdArr_cons_plain (pol : Policy) (path : List Seg) (i c : Nat) (v : Val)
    (vs : List Val) (h : pol.arrSel path i = false) :
    sdArr pol path i c (v :: vs) =
      ⟨(sdVal pol (path ++ [.idx i]) c v).out ::
          (sdArr pol path (i + 1) (sdVal pol (path ++ [.idx i]) c v).c vs).out,
        (sdVal pol (path ++ [.idx i]) c v).ds ++
          (sdArr pol path (i + 1) (sdVal pol (path ++ [.idx i]) c v).c vs).ds,
        (sdArr pol path (i + 1) (sdVal pol (path ++ [.idx i]) c v).c vs).c⟩ := by
  rw [sdArr]; simp [h]

theorem sdEnts_nil (pol : Policy) (path : List Seg) (c : Nat) :
    sdEnts pol path c [] = ⟨([], []), [], c⟩ := by rw [sdEnts]

theorem sdEnts_cons_sel (pol : Policy) (path : List Seg) (c : Nat) (k : String)
    (v : Val) (es : List (String × Val)) (h : pol.objSel path k = true) :
    sdEnts pol path c ((k, v) :: es) =
      ⟨((sdEnts pol path (c + 1) es).out.1,
          digestOf ⟨c, some k, v⟩ :: (sdEnts pol path (c + 1) es).out.2),
        ⟨c, some k, v⟩ :: (sdEnts pol path (c + 1) es).ds,
        (sdEnts pol path (c + 1) es).c⟩ := by
  rw [sdEnts]; simp [h]

theorem sdEnts_cons_plain (pol : Policy) (path : List Seg) (c : Nat) (k : String)
    (v : Val) (es : List (String × Val)) (h : pol.objSel path k = false) :
    sdEnts pol path c ((k, v) :: es) =
      ⟨((k, (sdVal pol (path ++ [.key k]) c v).out) ::
            (sdEnts pol path (sdVal pol (path ++ [.key k]) c v).c es).out.1,
          (sdEnts pol path (sdVal pol (path ++ [.key k]) c v).c es).out.2),
        (sdVal pol (path ++ [.key k]) c v).ds ++
          (sdEnts pol path (sdVal pol (path ++ [.key k]) c v).c es).ds,
        (sdEnts pol path (sdVal pol (path ++ [.key k]) c v).c es).c⟩ := by
  rw [sdEnts]; simp [h]

theorem rsVal_pnull (idx : Digest → Option Disclosure) :
    rsVal idx .pnull = .ok .vnull := by rw [rsVal]

theorem rsVal_pbool (idx : Digest → Option Disclosure) (b : Bool) :
    rsVal idx (.pbool b) = .ok (.vbool b) := by rw [rsVal]

theorem rsVal_pnum (idx : Digest → Option Disclosure) (n : Int) :
    rsVal idx (.pnum n) = .ok (.vnum n) := by rw [rsVal]

theorem rsVal_pstr (idx : Digest → Option Disclosure) (s : String) :
    rsVal idx (.pstr s) = .ok (.vstr s) := by rw [rsVal]

theorem rsVal_ph (idx : Digest → Option Disclosure) (d : Digest) :
    rsVal idx (.ph d) =
      (match idx d with
       | some dis => .ok dis.value
       | none => .error .UnresolvedDigestError) := by rw [rsVal]

theorem rsVal_parr (idx : Digest → Option Disclosure) (es : List PVal) :
    rsVal idx (.parr es) =
      (match rsArr idx es with
       | .ok vs => .ok (.varr vs)
       | .error e => .error e) := by rw [rsVal]

theorem rsVal_pobj (idx : Digest → Option Disclosure) (ents : List (String × PVal))
    (sd : List Digest) :
    rsVal idx (.pobj ents sd) =
      (match rsEnts idx ents with
       | .error e => .error e
       | .ok rents =>
         match rsSd idx sd with
         | .error e => .error e
         | .ok dents => .ok (.vobj (rents ++ dents))) := by rw [rsVal]

theorem rsArr_nil (idx : Digest → Option Disclosure) : rsArr idx [] = .ok [] := by
  rw [rsArr]

theorem rsArr_cons (idx : Digest → Option Disclosure) (p : PVal) (ps : List PVal) :
    rsArr idx (p :: ps) =
      (match rsVal idx p with
       | .error e => .error e
       | .ok v =>
         match rsArr idx ps with
         | .error e => .error e
         | .ok vs => .ok (v :: vs)) := by rw [rsArr]

theorem rsEnts_nil (idx : Digest → Option Disclosure) : rsEnts idx [] = .ok [] := by
  rw [rsEnts]

theorem rsEnts_cons (idx : Digest → Option Disclosure) (k : String) (p : PVal)
    (es : List (String × PVal)) :
    rsEnts idx ((k, p) :: es) =
      (match rsVal idx p with
       | .error e => .error e
       | .ok v =>
         match rsEnts idx es with
         | .error e => .error e
         | .ok vs => .ok ((k, v) :: vs)) := by rw [rsEnts]

theorem rsSd_nil (idx : Digest → Option Disclosure) : rsSd idx [] = .ok [] := by
  rw [rsSd]

theorem rsSd_cons (idx : Digest → Option Disclosure) (d : Digest) (sd : List Digest) :
    rsSd idx (d :: sd) =
      (match idx d with
       | none => rsSd idx sd
       | some dis =>
         match dis.key with
         | none => .error .EncodingError
         | some k =>
           match rsSd idx sd with
           | .error e => .error e
           | .ok vs => .ok ((k, dis.value) :: vs)) := by rw [rsSd]

theorem normList_nil : normList [] = [] := by rw [normList]

theorem normList_cons (v : Val) (vs : List Val) :
    normList (v :: vs) = vnorm v :: normList vs := by rw [normList]

theorem normEnts_nil : normEnts [] = [] := by rw [normEnts]

theorem normEnts_cons (k : String) (v : Val) (es : List (String × Val)) :
    normEnts ((k, v) :: es) = (k, vnorm v) :: normEnts es := by rw [normEnts]

theorem vnorm_vobj (es : List (String × Val)) :
    vnorm (.vobj es) = .vobj (sortEnts (normEnts es)) := by rw [vnorm]

theorem vnorm_varr (es : List Val) : vnorm (.varr es) = .varr (normList es) := by
  rw [vnorm]

theorem wfB_varr (es : List Val) : wfB (.varr es) = wfListB es := by rw [wfB]

theorem wfB_vobj (es : List (String × Val)) :
    wfB (.vobj es) = (decide ((es.map Prod.fst).Nodup) && wfEntsB es) := by rw [wfB]

/-! ## Basic facts about the digest index -/

theorem digestOf_id (d : Disclosure) : digestOf d = d := rfl

/-- Any hit of the index is the disclosure whose digest was queried: the
collision-free hash is injective in the model. -/
theorem mkIndex_eq_some {DS : List Disclosure} {d : Digest} {dis : Disclosure}
    (h : mkIndex DS d = some dis) : dis = d ∧ dis ∈ DS := by
  unfold mkIndex at h
  have hp := List.find?_some h
  have hm := List.mem_of_find?_eq_some h
  simp only [digestOf, decide_eq_true_eq] at hp
  exact ⟨hp, hm⟩

/-- A disclosed Disclosure is found by the index under its own digest. -/
theorem mkIndex_self_mem {DS : List Disclosure} {dis : Disclosure} (h : dis ∈ DS) :
    mkIndex DS (digestOf dis) = some dis := by
  have hs : (DS.find? (fun x => decide (digestOf x = digestOf dis))).isSome := by
    rw [List.find?_isSome]
    exact ⟨dis, h, by simp⟩
  obtain ⟨x, hx⟩ := Option.isSome_iff_exists.mp hs
  have hp := List.find?_some hx
  simp only [digestOf, decide_eq_true_eq] at hp
  unfold mkIndex
  rw [hx, hp]

/-- A digest matching nothing that was disclosed misses the index. -/
theorem mkIndex_eq_none {DS : List Disclosure} {d : Digest}
    (h : ∀ x ∈ DS, x ≠ d) : mkIndex DS d = none := by
  unfold mkIndex
  rw [List.find?_eq_none]
  intro x hx
  simp only [digestOf, decide_eq_true_eq]
  exact h x hx

/-! ## Facts about normalization and well-formedness -/

theorem normEnts_eq_map (es : List (String × Val)) :
    normEnts es = es.map (fun kv => (kv.1, vnorm kv.2)) := by
  induction es with
  | nil => rw [normEnts_nil]; rfl
  | cons kv es ih =>
    obtain ⟨k, v⟩ := kv
    rw [normEnts_cons, ih]
    rfl

theorem normList_eq_map (es : List Val) : normList es = es.map vnorm := by
  induction es with
  | nil => rw [normList_nil]; rfl
  | cons v vs ih => rw [normList_cons, ih]; rfl

theorem normEnts_append (a b : List (String × Val)) :
    normEnts (a ++ b) = normEnts a ++ normEnts b := by
  simp [normEnts_eq_map]

theorem map_fst_normEnts (es : List (String × Val)) :
    (normEnts es).map Prod.fst = es.map Prod.fst := by
  simp [normEnts_eq_map]

theorem wfEntsB_mem {k : String} {v : Val} :
    ∀ {es : List (String × Val)}, wfEntsB es = true → (k, v) ∈ es → wfB v = true := by
  intro es
  induction es with
  | nil => intro _ h; cases h
  | cons kv es ih =>
    obtain ⟨k', v'⟩ := kv
    intro hwf h
    rw [wfEntsB, Bool.and_eq_true] at hwf
    rcases List.mem_cons.mp h with h | h
    · cases h; exact hwf.1
    · exact ih hwf.2 h

theorem wfListB_mem {v : Val} :
    ∀ {es : List Val}, wfListB es = true → v ∈ es → wfB v = true := by
  intro es
  induction es with
  | nil => intro _ h; cases h
  | cons v' es ih =>
    intro hwf h
    rw [wfListB, Bool.and_eq_true] at hwf
    rcases List.mem_cons.mp h with h | h
    · cases h; exact hwf.1
    · exact ih hwf.2 h

theorem wfB_vobj_nodup {es : List (String × Val)} (h : wfB (.vobj es) = true) :
    (es.map Prod.fst).Nodup := by
  rw [wfB_vobj, Bool.and_eq_true, decide_eq_true_eq] at h
  exact h.1

theorem wfB_vobj_mem {es : List (String × Val)} {k : String} {v : Val}
    (h : wfB (.vobj es) = true) (hm : (k, v) ∈ es) : wfB v = true := by
  rw [wfB_vobj, Bool.and_eq_true] at h
  exact wfEntsB_mem h.2 hm

theorem wfB_varr_mem {es : List Val} {v : Val} (h : wfB (.varr es) = true)
    (hm : v ∈ es) : wfB v = true := by
  rw [wfB_varr] at h
  exact wfListB_mem h hm

/-! ## Sorted lists of entries: permutation invariance -/

theorem sorted_keyLT_of_nodup {l : List (String × Val)}
    (hs : List.Sorted keyLE l) (hnd : (l.map Prod.fst).Nodup) :
    List.Sorted keyLT l := by
  rw [List.Nodup, List.pairwise_map] at hnd
  exact (hs.and hnd).imp (fun h => lt_of_le_of_ne h.1 h.2)

theorem sortEnts_perm (l : List (String × Val)) : List.Perm (sortEnts l) l :=
  List.perm_insertionSort keyLE l

theorem sortEnts_sorted (l : List (String × Val)) : List.Sorted keyLE (sortEnts l) :=
  List.sorted_insertionSort keyLE l

/-- Two key-duplicate-free entry lists that are permutations of one another
have the same canonical sorted form. -/
theorem sortEnts_eq_of_perm {l1 l2 : List (String × Val)} (hp : List.Perm l1 l2)
    (hnd : (l1.map Prod.fst).Nodup) : sortEnts l1 = sortEnts l2 := by
  have hperm : List.Perm (sortEnts l1) (sortEnts l2) :=
    ((sortEnts_perm l1).trans hp).trans (sortEnts_perm l2).symm
  have hnd1 : ((sortEnts l1).map Prod.fst).Nodup :=
    (((sortEnts_perm l1).map Prod.fst).nodup_iff).mpr hnd
  have hnd2 : ((sortEnts l2).map Prod.fst).Nodup :=
    ((hperm.map Prod.fst).nodup_iff).mp hnd1
  exact List.eq_of_perm_of_sorted hperm
    (sorted_keyLT_of_nodup (sortEnts_sorted l1) hnd1)
    (sorted_keyLT_of_nodup (sortEnts_sorted l2) hnd2)

/-! ## Salt bookkeeping for the issuer traversal -/

theorem saltOK_nil {c c' : Nat} (h : c ≤ c') : SaltOK c [] c' := by
  refine ⟨h, ⟨?_, List.Pairwise.nil⟩⟩
  intro d hd
  cases hd

theorem saltOK_append {c c1 c' : Nat} {ds1 ds2 : List Disclosure}
    (h1 : SaltOK c ds1 c1) (h2 : SaltOK c1 ds2 c') : SaltOK c (ds1 ++ ds2) c' := by
  obtain ⟨hc1, hb1, hp1⟩ := h1
  obtain ⟨hc2, hb2, hp2⟩ := h2
  refine ⟨le_trans hc1 hc2, ?_, ?_⟩
  · intro d hd
    rcases List.mem_append.mp hd with hd | hd
    · obtain ⟨ha, hb⟩ := hb1 d hd
      exact ⟨ha, lt_of_lt_of_le hb hc2⟩
    · obtain ⟨ha, hb⟩ := hb2 d hd
      exact ⟨le_trans hc1 ha, hb⟩
  · rw [List.pairwise_append]
    refine ⟨hp1, hp2, ?_⟩
    intro a ha b hb
    exact lt_of_lt_of_le (hb1 a ha).2 (hb2 b hb).1

theorem saltOK_cons {c c' : Nat} {k : Option String} {v : Val} {ds : List Disclosure}
    (h : SaltOK (c + 1) ds c') : SaltOK c (⟨c, k, v⟩ :: ds) c' := by
  obtain ⟨hc, hb, hp⟩ := h
  refine ⟨by omega, ?_, ?_⟩
  · intro d hd
    rcases List.mem_cons.mp hd with hd | hd
    · subst hd
      exact ⟨le_refl _, Nat.lt_of_lt_of_le (Nat.lt_succ_self c) hc⟩
    · obtain ⟨ha, hb'⟩ := hb d hd
      exact ⟨by omega, hb'⟩
  · exact List.Pairwise.cons
      (fun d hd => Nat.lt_of_lt_of_le (Nat.lt_succ_self c) (hb d hd).1) hp

theorem saltOK_nodup {c c' : Nat} {ds : List Disclosure} (h : SaltOK c ds c') :
    ds.Nodup := by
  refine h.2.2.imp ?_
  intro a b hlt heq
  rw [heq] at hlt
  exact lt_irrefl _ hlt

/-- Salt bookkeeping for the object-entry traversal, given it for every
member value. -/
theorem saltEnts (pol : Policy) (path : List Seg) (es : List (String × Val))
    (hIH : ∀ k v, (k, v) ∈ es → ∀ path' c',
      SaltOK c' (sdVal pol path' c' v).ds (sdVal pol path' c' v).c) :
    ∀ c, SaltOK c (sdEnts pol path c es).ds (sdEnts pol path c es).c := by
  induction es with
  | nil =>
    intro c
    rw [sdEnts_nil]
    exact saltOK_nil (le_refl c)
  | cons kv es ih =>
    obtain ⟨k, v⟩ := kv
    intro c
    by_cases hsel : pol.objSel path k = true
    · rw [sdEnts_cons_sel pol path c k v es hsel]
      exact saltOK_cons (ih (fun k' v' h' => hIH k' v' (List.mem_cons_of_mem _ h')) (c + 1))
    · rw [sdEnts_cons_plain pol path c k v es (by simpa using hsel)]
      exact saltOK_append (hIH k v (List.mem_cons_self _ _) _ c)
        (ih (fun k' v' h' => hIH k' v' (List.mem_cons_of_mem _ h')) _)

/-- Salt bookkeeping for the array-element traversal, given it for every
member value. -/
theorem saltArr (pol : Policy) (path : List Seg) (es : List Val)
    (hIH : ∀ v, v ∈ es → ∀ path' c',
      SaltOK c' (sdVal pol path' c' v).ds (sdVal pol path' c' v).c) :
    ∀ i c, SaltOK c (sdArr pol path i c es).ds (sdArr pol path i c es).c := by
  induction es with
  | nil =>
    intro i c
    rw [sdArr_nil]
    exact saltOK_nil (le_refl c)
  | cons v es ih =>
    intro i c
    by_cases hsel : pol.arrSel path i = true
    · rw [sdArr_cons_sel pol path i c v es hsel]
      exact saltOK_cons (ih (fun v' h' => hIH v' (List.mem_cons_of_mem _ h')) (i + 1) (c + 1))
    · rw [sdArr_cons_plain pol path i c v es (by simpa using hsel)]
      exact saltOK_append (hIH v (List.mem_cons_self _ _) _ c)
        (ih (fun v' h' => hIH v' (List.mem_cons_of_mem _ h')) (i + 1) _)

/-- Salt bookkeeping for the whole traversal: all generated salts lie in
`[c, c')` where `c'` is the final counter, and are strictly increasing. -/
theorem saltVal (v : Val) :
    ∀ (pol : Policy) (path : List Seg) (c : Nat),
      SaltOK c (sdVal pol path c v).ds (sdVal pol path c v).c := by
  induction v using Val.inductionOn with
  | h0 => intro pol path c; rw [sdVal_vnull]; exact saltOK_nil (le_refl c)
  | h1 b => intro pol path c; rw [sdVal_vbool]; exact saltOK_nil (le_refl c)
  | h2 n => intro pol path c; rw [sdVal_vnum]; exact saltOK_nil (le_refl c)
  | h3 s => intro pol path c; rw [sdVal_vstr]; exact saltOK_nil (le_refl c)
  | h4 es ih =>
    intro pol path c
    rw [sdVal_varr]
    exact saltArr pol path es (fun v hv path' c' => ih v hv pol path' c') 0 c
  | h5 es ih =>
    intro pol path c
    rw [sdVal_vobj]
    exact saltEnts pol path es (fun k v hv path' c' => ih k v hv pol path' c') c

/-! ## Resolution success

Verification succeeds for any Holder selection, provided every
array-element Disclosure is disclosed: withheld object claims and decoys
are skipped over, while an in-place array placeholder must resolve. -/

theorem successEnts (pol : Policy) (path : List Seg) (es : List (String × Val))
    (hIH : ∀ k v, (k, v) ∈ es → ∀ (path' : List Seg) (c' : Nat) (DS : List Disclosure),
      (∀ dis ∈ (sdVal pol path' c' v).ds, dis.key = none →
        mkIndex DS (digestOf dis) = some dis) →
      ∃ w, rsVal (mkIndex DS) (sdVal pol path' c' v).out = .ok w) :
    ∀ (c : Nat) (DS : List Disclosure),
      (∀ dis ∈ (sdEnts pol path c es).ds, dis.key = none →
        mkIndex DS (digestOf dis) = some dis) →
      (∃ rents, rsEnts (mkIndex DS) (sdEnts pol path c es).out.1 = .ok rents) ∧
      (∃ dents, rsSd (mkIndex DS) (sdEnts pol path c es).out.2 = .ok dents) := by
  induction es with
  | nil =>
    intro c DS _
    rw [sdEnts_nil]
    exact ⟨⟨[], rsEnts_nil _⟩, ⟨[], rsSd_nil _⟩⟩
  | cons kv es ih =>
    obtain ⟨k, v⟩ := kv
    intro c DS hcov
    by_cases hsel : pol.objSel path k = true
    · rw [sdEnts_cons_sel pol path c k v es hsel] at hcov ⊢
      obtain ⟨⟨rents, hr⟩, ⟨dents, hd⟩⟩ :=
        ih (fun k' v' h' => hIH k' v' (List.mem_cons_of_mem _ h')) (c + 1) DS
          (fun dis h hk => hcov dis (List.mem_cons_of_mem _ h) hk)
      refine ⟨⟨rents, hr⟩, ?_⟩
      rcases hidx : mkIndex DS (digestOf ⟨c, some k, v⟩) with _ | dis
      · exact ⟨dents, by rw [rsSd_cons, hidx, hd]⟩
      · obtain ⟨hdis, _⟩ := mkIndex_eq_some hidx
        subst hdis
        exact ⟨(k, v) :: dents, by rw [rsSd_cons, hidx]; simp only [digestOf]; rw [hd]⟩
    · rw [sdEnts_cons_plain pol path c k v es (by simpa using hsel)] at hcov ⊢
      obtain ⟨w, hw⟩ := hIH k v (List.mem_cons_self _ _) (path ++ [.key k]) c DS
        (fun dis h hk => hcov dis (List.mem_append_left _ h) hk)
      obtain ⟨⟨rents, hr⟩, ⟨dents, hd⟩⟩ :=
        ih (fun k' v' h' => hIH k' v' (List.mem_cons_of_mem _ h'))
          (sdVal pol (path ++ [.key k]) c v).c DS
          (fun dis h hk => hcov dis (List.mem_append_right _ h) hk)
      exact ⟨⟨(k, w) :: rents, by rw [rsEnts_cons, hw, hr]⟩, ⟨dents, hd⟩⟩

theorem successArr (pol : Policy) (path : List Seg) (es : List Val)
    (hIH : ∀ v, v ∈ es → ∀ (path' : List Seg) (c' : Nat) (DS : List Disclosure),
      (∀ dis ∈ (sdVal pol path' c' v).ds, dis.key = none →
        mkIndex DS (digestOf dis) = some dis) →
      ∃ w, rsVal (mkIndex DS) (sdVal pol path' c' v).out = .ok w) :
    ∀ (i c : Nat) (DS : List Disclosure),
      (∀ dis ∈ (sdArr pol path i c es).ds, dis.key = none →
        mkIndex DS (digestOf dis) = some dis) →
      ∃ ws, rsArr (mkIndex DS) (sdArr pol path i c es).out = .ok ws := by
  induction es with
  | nil =>
    intro i c DS _
    rw [sdArr_nil]
    exact ⟨[], rsArr_nil _⟩
  | cons v es ih =>
    intro i c DS hcov
    by_cases hsel : pol.arrSel path i = true
    · rw [sdArr_cons_sel pol path i c v es hsel] at hcov ⊢
      obtain ⟨ws, hws⟩ :=
        ih (fun v' h' => hIH v' (List.mem_cons_of_mem _ h')) (i + 1) (c + 1) DS
          (fun dis h hk => hcov dis (List.mem_cons_of_mem _ h) hk)
      have hhit : mkIndex DS (digestOf ⟨c, none, v⟩) = some ⟨c, none, v⟩ :=
        hcov ⟨c, none, v⟩ (List.mem_cons_self _ _) rfl
      exact ⟨v :: ws, by rw [rsArr_cons, rsVal_ph, hhit, hws]⟩
    · rw [sdArr_cons_plain pol path i c v es (by simpa using hsel)] at hcov ⊢
      obtain ⟨w, hw⟩ := hIH v (List.mem_cons_self _ _) (path ++ [.idx i]) c DS
        (fun dis h hk => hcov dis (List.mem_append_left _ h) hk)
      obtain ⟨ws, hws⟩ :=
        ih (fun v' h' => hIH v' (List.mem_cons_of_mem _ h')) (i + 1)
          (sdVal pol (path ++ [.idx i]) c v).c DS
          (fun dis h hk => hcov dis (List.mem_append_right _ h) hk)
      exact ⟨w :: ws, by rw [rsArr_cons, hw, hws]⟩

/-- Resolution of the issued claim tree succeeds whenever every array-element
Disclosure (claim-name-free Disclosure) generated for it is found by the
index; withheld object claims and decoys are simply skipped. -/
theorem successVal (v : Val) :
    ∀ (pol : Policy) (path : List Seg) (c : Nat) (DS : List Disclosure),
      (∀ dis ∈ (sdVal pol path c v).ds, dis.key = none →
        mkIndex DS (digestOf dis) = some dis) →
      ∃ w, rsVal (mkIndex DS) (sdVal pol path c v).out = .ok w := by
  induction v using Val.inductionOn with
  | h0 => intro pol path c DS _; rw [sdVal_vnull]; exact ⟨.vnull, rsVal_pnull _⟩
  | h1 b => intro pol path c DS _; rw [sdVal_vbool]; exact ⟨.vbool b, rsVal_pbool _ b⟩
  | h2 n => intro pol path c DS _; rw [sdVal_vnum]; exact ⟨.vnum n, rsVal_pnum _ n⟩
  | h3 s => intro pol path c DS _; rw [sdVal_vstr]; exact ⟨.vstr s, rsVal_pstr _ s⟩
  | h4 es ih =>
    intro pol path c DS hcov
    rw [sdVal_varr] at hcov ⊢
    obtain ⟨ws, hws⟩ :=
      successArr pol path es (fun v' hv' => ih v' hv' pol) 0 c DS hcov
    exact ⟨.varr ws, by rw [rsVal_parr, hws]⟩
  | h5 es ih =>
    intro pol path c DS hcov
    rw [sdVal_vobj] at hcov ⊢
    obtain ⟨⟨rents, hr⟩, ⟨dents, hd⟩⟩ :=
      successEnts pol path es (fun k v' hv' => ih k v' hv' pol) c DS hcov
    exact ⟨.vobj (rents ++ dents), by rw [rsVal_pobj, hr, hd]⟩

/-! ## Round trip under full disclosure

When the index finds every Disclosure generated for a subtree, resolution
reconstructs that subtree up to object-entry order (exactly, for arrays). -/

theorem rtEnts (pol : Policy) (path : List Seg) (es : List (String × Val))
    (hIH : ∀ k v, (k, v) ∈ es → ∀ (path' : List Seg) (c' : Nat) (DS : List Disclosure),
      wfB v = true →
      (∀ dis ∈ (sdVal pol path' c' v).ds, mkIndex DS (digestOf dis) = some dis) →
      ∃ w, rsVal (mkIndex DS) (sdVal pol path' c' v).out = .ok w ∧ vnorm w = vnorm v)
    (hwfm : ∀ k v, (k, v) ∈ es → wfB v = true) :
    ∀ (c : Nat) (DS : List Disclosure),
      (∀ dis ∈ (sdEnts pol path c es).ds, mkIndex DS (digestOf dis) = some dis) →
      ∃ rents dents,
        rsEnts (mkIndex DS) (sdEnts pol path c es).out.1 = .ok rents ∧
        rsSd (mkIndex DS) (sdEnts pol path c es).out.2 = .ok dents ∧
        List.Perm (normEnts rents ++ normEnts dents) (normEnts es) := by
  induction es with
  | nil =>
    intro c DS _
    rw [sdEnts_nil]
    exact ⟨[], [], rsEnts_nil _, rsSd_nil _, by rw [normEnts_nil]; exact List.Perm.refl _⟩
  | cons kv es ih =>
    obtain ⟨k, v⟩ := kv
    intro c DS hcov
    by_cases hsel : pol.objSel path k = true
    · rw [sdEnts_cons_sel pol path c k v es hsel] at hcov ⊢
      obtain ⟨rents, dents, hr, hd, hperm⟩ :=
        ih (fun k' v' h' => hIH k' v' (List.mem_cons_of_mem _ h'))
          (fun k' v' h' => hwfm k' v' (List.mem_cons_of_mem _ h')) (c + 1) DS
          (fun dis h => hcov dis (List.mem_cons_of_mem _ h))
      have hhit : mkIndex DS (digestOf ⟨c, some k, v⟩) = some ⟨c, some k, v⟩ :=
        hcov ⟨c, some k, v⟩ (List.mem_cons_self _ _)
      refine ⟨rents, (k, v) :: dents,
        hr, by rw [rsSd_cons, hhit]; simp only [digestOf]; rw [hd], ?_⟩
      rw [normEnts_cons, normEnts_cons]
      exact List.perm_middle.trans ((hperm).cons (k, vnorm v))
    · rw [sdEnts_cons_plain pol path c k v es (by simpa using hsel)] at hcov ⊢
      obtain ⟨w, hw, hnw⟩ := hIH k v (List.mem_cons_self _ _) (path ++ [.key k]) c DS
        (hwfm k v (List.mem_cons_self _ _))
        (fun dis h => hcov dis (List.mem_append_left _ h))
      obtain ⟨rents, dents, hr, hd, hperm⟩ :=
        ih (fun k' v' h' => hIH k' v' (List.mem_cons_of_mem _ h'))
          (fun k' v' h' => hwfm k' v' (List.mem_cons_of_mem _ h'))
          (sdVal pol (path ++ [.key k]) c v).c DS
          (fun dis h => hcov dis (List.mem_append_right _ h))
      refine ⟨(k, w) :: rents, dents, by rw [rsEnts_cons, hw, hr], hd, ?_⟩
      rw [normEnts_cons, normEnts_cons, hnw, List.cons_append]
      exact hperm.cons (k, vnorm v)

theorem rtArr (pol : Policy) (path : List Seg) (es : List Val)
    (hIH : ∀ v, v ∈ es → ∀ (path' : List Seg) (c' : Nat) (DS : List Disclosure),
      wfB v = true →
      (∀ dis ∈ (sdVal pol path' c' v).ds, mkIndex DS (digestOf dis) = some dis) →
      ∃ w, rsVal (mkIndex DS) (sdVal pol path' c' v).out = .ok w ∧ vnorm w = vnorm v)
    (hwfm : ∀ v, v ∈ es → wfB v = true) :
    ∀ (i c : Nat) (DS : List Disclosure),
      (∀ dis ∈ (sdArr pol path i c es).ds, mkIndex DS (digestOf dis) = some dis) →
      ∃ ws, rsArr (mkIndex DS) (sdArr pol path i c es).out = .ok ws ∧
        normList ws = normList es := by
  induction es with
  | nil =>
    intro i c DS _
    rw [sdArr_nil]
    exact ⟨[], rsArr_nil _, rfl⟩
  | cons v es ih =>
    intro i c DS hcov
    by_cases hsel : pol.arrSel path i = true
    · rw [sdArr_cons_sel pol path i c v es hsel] at hcov ⊢
      obtain ⟨ws, hws, hn⟩ :=
        ih (fun v' h' => hIH v' (List.mem_cons_of_mem _ h'))
          (fun v' h' => hwfm v' (List.mem_cons_of_mem _ h')) (i + 1) (c + 1) DS
          (fun dis h => hcov dis (List.mem_cons_of_mem _ h))
      have hhit : mkIndex DS (digestOf ⟨c, none, v⟩) = some ⟨c, none, v⟩ :=
        hcov ⟨c, none, v⟩ (List.mem_cons_self _ _)
      refine ⟨v :: ws, by rw [rsArr_cons, rsVal_ph, hhit, hws], ?_⟩
      rw [normList_cons, normList_cons, hn]
    · rw [sdArr_cons_plain pol path i c v es (by simpa using hsel)] at hcov ⊢
      obtain ⟨w, hw, hnw⟩ := hIH v (List.mem_cons_self _ _) (path ++ [.idx i]) c DS
        (hwfm v (List.mem_cons_self _ _))
        (fun dis h => hcov dis (List.mem_append_left _ h))
      obtain ⟨ws, hws, hn⟩ :=
        ih (fun v' h' => hIH v' (List.mem_cons_of_mem _ h'))
          (fun v' h' => hwfm v' (List.mem_cons_of_mem _ h')) (i + 1)
          (sdVal pol (path ++ [.idx i]) c v).c DS
          (fun dis h => hcov dis (List.mem_append_right _ h))
      refine ⟨w :: ws, by rw [rsArr_cons, hw, hws], ?_⟩
      rw [normList_cons, normList_cons, hn, hnw]

/-- Round trip for one claim value: if the index finds every Disclosure
generated for it and its object keys are duplicate-free, resolution yields a
value with the same canonical form. -/
theorem rtVal (v : Val) :
    ∀ (pol : Policy) (path : List Seg) (c : Nat) (DS : List Disclosure),
      wfB v = true →
      (∀ dis ∈ (sdVal pol path c v).ds, mkIndex DS (digestOf dis) = some dis) →
      ∃ w, rsVal (mkIndex DS) (sdVal pol path c v).out = .ok w ∧ vnorm w = vnorm v := by
  induction v using Val.inductionOn with
  | h0 => intro pol path c DS _ _; rw [sdVal_vnull]; exact ⟨.vnull, rsVal_pnull _, rfl⟩
  | h1 b => intro pol path c DS _ _; rw [sdVal_vbool]; exact ⟨.vbool b, rsVal_pbool _ b, rfl⟩
  | h2 n => intro pol path c DS _ _; rw [sdVal_vnum]; exact ⟨.vnum n, rsVal_pnum _ n, rfl⟩
  | h3 s => intro pol path c DS _ _; rw [sdVal_vstr]; exact ⟨.vstr s, rsVal_pstr _ s, rfl⟩
  | h4 es ih =>
    intro pol path c DS hwf hcov
    rw [sdVal_varr] at hcov ⊢
    obtain ⟨ws, hws, hn⟩ :=
      rtArr pol path es (fun v' hv' => ih v' hv' pol)
        (fun v' hv' => wfB_varr_mem hwf hv') 0 c DS hcov
    exact ⟨.varr ws, by rw [rsVal_parr, hws], by rw [vnorm_varr, vnorm_varr, hn]⟩
  | h5 es ih =>
    intro pol path c DS hwf hcov
    rw [sdVal_vobj] at hcov ⊢
    obtain ⟨rents, dents, hr, hd, hperm⟩ :=
      rtEnts pol path es (fun k v' hv' => ih k v' hv' pol)
        (fun k v' hv' => wfB_vobj_mem hwf hv') c DS hcov
    refine ⟨.vobj (rents ++ dents), by rw [rsVal_pobj, hr, hd], ?_⟩
    rw [vnorm_vobj, vnorm_vobj, normEnts_append]
    have hnd : ((normEnts rents ++ normEnts dents).map Prod.fst).Nodup := by
      refine ((hperm.map Prod.fst).nodup_iff).mpr ?_
      rw [map_fst_normEnts]
      exact wfB_vobj_nodup hwf
    rw [sortEnts_eq_of_perm hperm hnd]

/-! ## Glue lemmas for the full pipeline -/

theorem lookup_cons_self {α : Type} (k : String) (v : α) (es : List (String × α)) :
    List.lookup k ((k, v) :: es) = some v := by
  simp [List.lookup]

theorem lookup_cons_ne {α : Type} (k k' : String) (v : α) (es : List (String × α))
    (h : k ≠ k') : List.lookup k ((k', v) :: es) = List.lookup k es := by
  rw [List.lookup, beq_false_of_ne h]

/-- A claim whose key the policy keeps plain and whose value is a string
survives the issuer traversal as a plain payload entry. -/
theorem sdEnts_lookup_vstr (pol : Policy) (path : List Seg) (k : String) (s : String) :
    ∀ (es : List (String × Val)) (c : Nat),
      pol.objSel path k = false →
      es.lookup k = some (.vstr s) →
      (sdEnts pol path c es).out.1.lookup k = some (.pstr s) := by
  intro es
  induction es with
  | nil => intro c _ hlk; simp [List.lookup] at hlk
  | cons kv es ih =>
    obtain ⟨k', v'⟩ := kv
    intro c hsel hlk
    by_cases hk : k = k'
    · subst hk
      rw [lookup_cons_self] at hlk
      injection hlk with hv
      subst hv
      rw [sdEnts_cons_plain pol path c k _ es hsel]
      rw [sdVal_vstr]
      exact lookup_cons_self k _ _
    · have hlk' : es.lookup k = some (.vstr s) := by
        rwa [lookup_cons_ne k k' v' es hk] at hlk
      by_cases hsel' : pol.objSel path k' = true
      · rw [sdEnts_cons_sel pol path c k' v' es hsel']
        exact ih (c + 1) hsel hlk'
      · rw [sdEnts_cons_plain pol path c k' v' es (by simpa using hsel')]
        rw [lookup_cons_ne k k' _ _ hk]
        exact ih _ hsel hlk'

theorem restrictRegistered_iss (pol : Policy) :
    (restrictRegistered pol).objSel [] "iss" = false := by
  simp [restrictRegistered, registeredNames]

/-- With no array-element selection, every generated Disclosure carries a
claim name: object-entry traversal part. -/
theorem keysomeEnts (pol : Policy) (path : List Seg) (es : List (String × Val))
    (hIH : ∀ k v, (k, v) ∈ es → ∀ (path' : List Seg) (c' : Nat),
      ∀ dis ∈ (sdVal pol path' c' v).ds, dis.key.isSome) :
    ∀ (c : Nat), ∀ dis ∈ (sdEnts pol path c es).ds, dis.key.isSome := by
  induction es with
  | nil => intro c dis hd; rw [sdEnts_nil] at hd; cases hd
  | cons kv es ih =>
    obtain ⟨k, v⟩ := kv
    intro c dis hd
    by_cases hsel : pol.objSel path k = true
    · rw [sdEnts_cons_sel pol path c k v es hsel] at hd
      rcases List.mem_cons.mp hd with hd | hd
      · subst hd; rfl
      · exact ih (fun k' v' h' => hIH k' v' (List.mem_cons_of_mem _ h')) (c + 1) dis hd
    · rw [sdEnts_cons_plain pol path c k v es (by simpa using hsel)] at hd
      rcases List.mem_append.mp hd with hd | hd
      · exact hIH k v (List.mem_cons_self _ _) _ c dis hd
      · exact ih (fun k' v' h' => hIH k' v' (List.mem_cons_of_mem _ h')) _ dis hd

/-- With no array-element selection, every generated Disclosure carries a
claim name: array part (vacuous selection). -/
theorem keysomeArr (pol : Policy) (path : List Seg) (es : List Val)
    (hparr : ∀ p i, pol.arrSel p i = false)
    (hIH : ∀ v, v ∈ es → ∀ (path' : List Seg) (c' : Nat),
      ∀ dis ∈ (sdVal pol path' c' v).ds, dis.key.isSome) :
    ∀ (i c : Nat), ∀ dis ∈ (sdArr pol path i c es).ds, dis.key.isSome := by
  induction es with
  | nil => intro i c dis hd; rw [sdArr_nil] at hd; cases hd
  | cons v es ih =>
    intro i c dis hd
    rw [sdArr_cons_plain pol path i c v es (hparr path i)] at hd
    rcases List.mem_append.mp hd with hd | hd
    · exact hIH v (List.mem_cons_self _ _) _ c dis hd
    · exact ih (fun v' h' => hIH v' (List.mem_cons_of_mem _ h')) (i + 1) _ dis hd

/-- With no array-element selection, every generated Disclosure carries a
claim name. -/
theorem keysomeVal (v : Val) :
    ∀ (pol : Policy), (∀ p i, pol.arrSel p i = false) →
      ∀ (path : List Seg) (c : Nat), ∀ dis ∈ (sdVal pol path c v).ds, dis.key.isSome := by
  induction v using Val.inductionOn with
  | h0 => intro pol _ path c dis hd; rw [sdVal_vnull] at hd; cases hd
  | h1 b => intro pol _ path c dis hd; rw [sdVal_vbool] at hd; cases hd
  | h2 n => intro pol _ path c dis hd; rw [sdVal_vnum] at hd; cases hd
  | h3 s => intro pol _ path c dis hd; rw [sdVal_vstr] at hd; cases hd
  | h4 es ih =>
    intro pol hparr path c dis hd
    rw [sdVal_varr] at hd
    exact keysomeArr pol path es hparr
      (fun v' hv' path' c' => ih v' hv' pol hparr path' c') 0 c dis hd
  | h5 es ih =>
    intro pol hparr path c dis hd
    rw [sdVal_vobj] at hd
    exact keysomeEnts pol path es
      (fun k v' hv' path' c' => ih k v' hv' pol hparr path' c') c dis hd

/-- A placeholder list that the index misses entirely contributes nothing. -/
theorem rsSd_none (idx : Digest → Option Disclosure) :
    ∀ (sd : List Digest), (∀ d ∈ sd, idx d = none) → rsSd idx sd = .ok [] := by
  intro sd
  induction sd with
  | nil => intro _; exact rsSd_nil _
  | cons d sd ih =>
    intro hmiss
    rw [rsSd_cons, hmiss d (List.mem_cons_self _ _)]
    exact ih (fun d' h' => hmiss d' (List.mem_cons_of_mem _ h'))

/-- Appending index-missed digests (decoys) to a placeholder list does not
change its resolution. -/
theorem rsSd_append_none (idx : Digest → Option Disclosure) (b : List Digest)
    (hmiss : ∀ d ∈ b, idx d = none) :
    ∀ (a : List Digest), rsSd idx (a ++ b) = rsSd idx a := by
  intro a
  induction a with
  | nil =>
    rw [List.nil_append, rsSd_nil]
    exact rsSd_none idx b hmiss
  | cons d a ih =>
    rw [List.cons_append, rsSd_cons, rsSd_cons, ih]

theorem map_digestOf (l : List Disclosure) : l.map digestOf = l := by
  induction l with
  | nil => rfl
  | cons d l ih => rw [List.map_cons, ih]; rfl

/-- Accessors for what `issue` produces (definitional). -/
theorem issue_cnf (pol : Policy) (n sb : Nat) (claims : List (String × Val))
    (hp : Option Nat) (ik : Nat) :
    (issue pol n sb claims hp ik).combined_sd_jwt_iid.signed.payload.cnf = hp := rfl

theorem issue_signerKey (pol : Policy) (n sb : Nat) (claims : List (String × Val))
    (hp : Option Nat) (ik : Nat) :
    (issue pol n sb claims hp ik).combined_sd_jwt_iid.signed.signerKey = ik := rfl

theorem issue_disclosures (pol : Policy) (n sb : Nat) (claims : List (String × Val))
    (hp : Option Nat) (ik : Nat) :
    (issue pol n sb claims hp ik).combined_sd_jwt_iid.disclosures =
      (sdEnts (restrictRegistered pol) [] sb claims).ds := rfl

theorem issue_claims (pol : Policy) (n sb : Nat) (claims : List (String × Val))
    (hp : Option Nat) (ik : Nat) :
    (issue pol n sb claims hp ik).combined_sd_jwt_iid.signed.payload.claims =
      .pobj (sdEnts (restrictRegistered pol) [] sb claims).out.1
        ((sdEnts (restrictRegistered pol) [] sb claims).out.2 ++
          (List.range n).map
            (fun i => decoyDigest ((sdEnts (restrictRegistered pol) [] sb claims).c + i))) := rfl

theorem issue_decoy_digests (pol : Policy) (n sb : Nat) (claims : List (String × Val))
    (hp : Option Nat) (ik : Nat) :
    (issue pol n sb claims hp ik).decoy_digests =
      (List.range n).map
        (fun i => decoyDigest ((sdEnts (restrictRegistered pol) [] sb claims).c + i)) := rfl

theorem issue_ii_disclosures (pol : Policy) (n sb : Nat) (claims : List (String × Val))
    (hp : Option Nat) (ik : Nat) :
    (issue pol n sb claims hp ik).ii_disclosures =
      (sdEnts (restrictRegistered pol) [] sb claims).ds := rfl

theorem issue_sd_jwt_payload (pol : Policy) (n sb : Nat) (claims : List (String × Val))
    (hp : Option Nat) (ik : Nat) :
    (issue pol n sb claims hp ik).sd_jwt_payload =
      (issue pol n sb claims hp ik).combined_sd_jwt_iid.signed.payload := rfl

/-- `create_presentation` with no binding material: succeeds when the
artifact does not demand holder binding, with no Holder-Binding Object. -/
theorem create_presentation_fields_nb (ci : CombinedIssuance) (sel : Disclosure → Bool)
    (hbIat : Int) (h : ci.signed.payload.cnf.isSome = false) :
    ∃ hRun, create_presentation ci sel none none none hbIat = .ok hRun ∧
      hRun.combined_presentation = ⟨ci.signed, ci.disclosures.filter sel, none⟩ ∧
      hRun.holder_binding_jwt_payload = none := by
  unfold create_presentation
  simp only [Option.isNone_none, Bool.and_true, h]
  refine ⟨_, rfl, ?_, ?_⟩ <;> rfl

/-- `create_presentation` with nonce, audience and Holder key all supplied:
succeeds and carries the signed Holder-Binding Object. -/
theorem create_presentation_fields_hb (ci : CombinedIssuance) (sel : Disclosure → Bool)
    (nn a : String) (k : Nat) (hbIat : Int) :
    ∃ hRun, create_presentation ci sel (some nn) (some a) (some k) hbIat = .ok hRun ∧
      hRun.combined_presentation =
        ⟨ci.signed, ci.disclosures.filter sel, some ⟨⟨nn, a, hbIat⟩, k⟩⟩ ∧
      hRun.holder_binding_jwt_payload = some ⟨nn, a, hbIat⟩ := by
  unfold create_presentation
  simp only [Option.isNone_some, Bool.and_false]
  refine ⟨_, rfl, ?_, ?_⟩ <;> rfl

theorem checkBinding_absent (cp : CombinedPresentation) (h : cp.hb = none) :
    checkBinding cp none none = .ok () := by
  unfold checkBinding
  rw [h]
  rfl

theorem checkBinding_present (cp : CombinedPresentation) (hbj : HBJwt) (hpk : Nat)
    (h1 : cp.hb = some hbj) (h2 : cp.signed.payload.cnf = some hpk)
    (h3 : hbj.signerKey = hpk) :
    checkBinding cp (some hbj.payload.aud) (some hbj.payload.nonce) = .ok () := by
  unfold checkBinding
  rw [h1, h2]
  show (if hbj.signerKey = hpk ∧ some hbj.payload.nonce = some hbj.payload.nonce ∧
        some hbj.payload.aud = some hbj.payload.aud
      then (Except.ok () : Except VErr Unit) else Except.error VErr.HolderBindingError) =
    Except.ok ()
  rw [if_pos ⟨h3, rfl, rfl⟩]

/-- The Verifier succeeds when all its checks succeed: abstract assembly. -/
theorem get_verified_payload_ok (signedP : SDPayload) (ik : Nat)
    (presented : List Disclosure) (hb : Option HBJwt)
    (cb : String → Except String Nat) (expAud expNonce : Option String)
    (ents : List (String × PVal)) (sd : List Digest) (s : String) (w : Val)
    (hclaims : signedP.claims = .pobj ents sd)
    (hlk : ents.lookup "iss" = some (.pstr s))
    (hcb : cb s = .ok ik)
    (hnd : (presented.map digestOf).Nodup)
    (hres : rsVal (mkIndex presented) (.pobj ents sd) = .ok w)
    (hbind : checkBinding ⟨⟨signedP, ik⟩, presented, hb⟩ expAud expNonce = .ok ()) :
    get_verified_payload ⟨⟨signedP, ik⟩, presented, hb⟩ cb expAud expNonce none = .ok w := by
  unfold get_verified_payload
  simp only [hclaims, hlk, hcb, temporalCheck, if_true, eq_self_iff_true]
  rw [if_pos hnd]
  simp only [hres, hbind]

/-- Central success lemma: for a policy with no array-element selection (as
the library's default policy), issuing, presenting any selection of claims
and verifying succeeds, in both the binding-free and the holder-binding
configuration that `generate.py` uses. -/
theorem pipeline_ok (pol : Policy) (hparr : ∀ p i, pol.arrSel p i = false)
    (n sb : Nat) (claims : List (String × Val)) (ik : Nat)
    (sel : Disclosure → Bool) (cb : String → Except String Nat) (s : String)
    (b : Bool) (hk : Nat) (nonceS audS : String) (hbIat : Int)
    (hiss : claims.lookup "iss" = some (.vstr s))
    (hcb : cb s = .ok ik) :
    ∃ hRun w,
      create_presentation
        (issue pol n sb claims (if b then some hk else none) ik).combined_sd_jwt_iid
        sel (if b then some nonceS else none) (if b then some audS else none)
        (if b then some hk else none) hbIat = .ok hRun ∧
      hRun.combined_presentation.hb =
        (if b then some ⟨⟨nonceS, audS, hbIat⟩, hk⟩ else none) ∧
      get_verified_payload hRun.combined_presentation cb
        (if b then some audS else none) (if b then some nonceS else none) none = .ok w := by
  have hparr' : ∀ p i, (restrictRegistered pol).arrSel p i = false := hparr
  have hsalt : SaltOK sb (sdEnts (restrictRegistered pol) [] sb claims).ds
      (sdEnts (restrictRegistered pol) [] sb claims).c :=
    saltEnts _ [] claims (fun k v _ path' c' => saltVal v _ path' c') sb
  have hndDs : (sdEnts (restrictRegistered pol) [] sb claims).ds.Nodup := saltOK_nodup hsalt
  have hndP : ((sdEnts (restrictRegistered pol) [] sb claims).ds.filter sel).Nodup :=
    hndDs.filter sel
  have hndPd : ((((sdEnts (restrictRegistered pol) [] sb claims).ds.filter sel)).map
      digestOf).Nodup := by
    rw [map_digestOf]; exact hndP
  have hmiss : ∀ d ∈ (List.range n).map
      (fun i => decoyDigest ((sdEnts (restrictRegistered pol) [] sb claims).c + i)),
      mkIndex ((sdEnts (restrictRegistered pol) [] sb claims).ds.filter sel) d = none := by
    intro d hd
    obtain ⟨i, _, rfl⟩ := List.mem_map.mp hd
    apply mkIndex_eq_none
    intro x hx heq
    have hxm : x ∈ (sdEnts (restrictRegistered pol) [] sb claims).ds :=
      List.mem_of_mem_filter hx
    have hxb := (hsalt.2.1 x hxm).2
    have hxs : x.salt = (sdEnts (restrictRegistered pol) [] sb claims).c + i :=
      congrArg Disclosure.salt heq
    omega
  have hcov : ∀ dis ∈ (sdEnts (restrictRegistered pol) [] sb claims).ds,
      dis.key = none →
      mkIndex ((sdEnts (restrictRegistered pol) [] sb claims).ds.filter sel)
        (digestOf dis) = some dis := by
    intro dis hdm hkey
    have hks := keysomeEnts (restrictRegistered pol) [] claims
      (fun k v _ path' c' => keysomeVal v _ hparr' path' c') sb dis hdm
    rw [hkey] at hks
    cases hks
  obtain ⟨⟨rents, hr⟩, ⟨dents, hd⟩⟩ :=
    successEnts (restrictRegistered pol) [] claims
      (fun k v _ path' c' DS hcov' => successVal v _ path' c' DS hcov') sb
      ((sdEnts (restrictRegistered pol) [] sb claims).ds.filter sel) hcov
  have hres : rsVal (mkIndex ((sdEnts (restrictRegistered pol) [] sb claims).ds.filter sel))
      (.pobj (sdEnts (restrictRegistered pol) [] sb claims).out.1
        ((sdEnts (restrictRegistered pol) [] sb claims).out.2 ++
          (List.range n).map
            (fun i => decoyDigest ((sdEnts (restrictRegistered pol) [] sb claims).c + i)))) =
      .ok (.vobj (rents ++ dents)) := by
    rw [rsVal_pobj, hr, rsSd_append_none _ _ hmiss, hd]
  have hlk : (sdEnts (restrictRegistered pol) [] sb claims).out.1.lookup "iss" =
      some (.pstr s) :=
    sdEnts_lookup_vstr _ [] "iss" s claims sb (restrictRegistered_iss pol) hiss
  cases b with
  | false =>
    obtain ⟨hRun, hcp, hcomb, _⟩ :=
      create_presentation_fields_nb
        (issue pol n sb claims none ik).combined_sd_jwt_iid sel hbIat
        (by rw [issue_cnf]; rfl)
    refine ⟨hRun, .vobj (rents ++ dents), hcp, by rw [hcomb]; rfl, ?_⟩
    rw [hcomb]
    exact get_verified_payload_ok _ ik _ none cb none none _ _ s _
      (issue_claims pol n sb claims none ik) hlk hcb hndPd hres
      (checkBinding_absent _ rfl)
  | true =>
    obtain ⟨hRun, hcp, hcomb, _⟩ :=
      create_presentation_fields_hb
        (issue pol n sb claims (some hk) ik).combined_sd_jwt_iid sel nonceS audS hk hbIat
    refine ⟨hRun, .vobj (rents ++ dents), hcp, by rw [hcomb]; rfl, ?_⟩
    rw [hcomb]
    exact get_verified_payload_ok _ ik _ (some ⟨⟨nonceS, audS, hbIat⟩, hk⟩) cb
      (some audS) (some nonceS) _ _ s _
      (issue_claims pol n sb claims (some hk) ik) hlk hcb hndPd hres
      (checkBinding_present _ ⟨⟨nonceS, audS, hbIat⟩, hk⟩ hk rfl rfl rfl)

/-- The issuer-key callback of `generate.py` resolves the merged `iss` claim
to the issuer public key, which verifies against the issuer signing key. -/
theorem cb_get_issuer_key_hit (settings : Settings) (user : List (String × Val))
    (s : String)
    (hiss : (mergedClaims settings user).lookup "iss" = some (.vstr s)) :
    cb_get_issuer_key (mergedClaims settings user) (get_jwk settings.random_seed) s =
      .ok (get_jwk settings.random_seed).issuer_key := by
  unfold cb_get_issuer_key
  rw [if_pos hiss]
  rfl

/-- `generate_test_case_data` succeeds end to end whenever the merged claim
set carries a string `iss`: the Holder stage and the Verifier stage both
return `ok`, and the function produces the artifact set. -/
theorem generate_ok (gs : GlobalState) (settings : Settings) (tc : Testcase)
    (ty : GType) (fmt : Formatting) (entropy : Nat) (s : String)
    (hiss : (mergedClaims settings tc.user_claims).lookup "iss" = some (.vstr s)) :
    ∃ hRun verified,
      holderStage settings tc (issuerStage true settings tc entropy) = .ok hRun ∧
      hRun.combined_presentation.hb =
        (if tc.holder_binding
         then some ⟨⟨settings.holder_binding_nonce, settings.verifier, settings.iat⟩,
                    (get_jwk settings.random_seed).holder_key⟩
         else none) ∧
      verifierStage settings tc hRun = .ok verified ∧
      (generate_test_case_data gs settings tc ty fmt entropy).2 = .ok
        { issuer_run := issuerStage true settings tc entropy
          holder_run := hRun
          verified := verified
          artifacts := artifactsOf ty tc.add_decoy_claims tc
            (issuerStage true settings tc entropy) hRun verified fmt
          files := writeArtifacts (formatterOf ty fmt)
            (artifactsOf ty tc.add_decoy_claims tc
              (issuerStage true settings tc entropy) hRun verified fmt) } := by
  obtain ⟨hRun, w, hcp, hhb, hver⟩ :=
    pipeline_ok defaultPolicy (fun _ _ => rfl)
      (if tc.add_decoy_claims then settings.decoy_count else 0)
      settings.random_seed (mergedClaims settings tc.user_claims)
      (get_jwk settings.random_seed).issuer_key
      tc.holder_disclosed_claims
      (cb_get_issuer_key (mergedClaims settings tc.user_claims)
        (get_jwk settings.random_seed)) s
      tc.holder_binding (get_jwk settings.random_seed).holder_key
      settings.holder_binding_nonce settings.verifier settings.iat
      hiss (cb_get_issuer_key_hit settings tc.user_claims s hiss)
  have hh : holderStage settings tc (issuerStage true settings tc entropy) = .ok hRun := hcp
  have hv : verifierStage settings tc hRun = .ok w := hver
  refine ⟨hRun, w, hh, hhb, hv, ?_⟩
  show (match holderStage settings tc (issuerStage true settings tc entropy) with
    | .error e => (.error (.holderError e) : Except GErr GenOutput)
    | .ok hRun =>
      match verifierStage settings tc hRun with
      | .error e => .error (.verifierError e)
      | .ok verified =>
        let arts := artifactsOf ty tc.add_decoy_claims tc
          (issuerStage true settings tc entropy) hRun verified fmt
        .ok { issuer_run := issuerStage true settings tc entropy
              holder_run := hRun
              verified := verified
              artifacts := arts
              files := writeArtifacts (formatterOf ty fmt) arts }) = _
  rw [hh]
  show (match verifierStage settings tc hRun with
    | .error e => (.error (.verifierError e) : Except GErr GenOutput)
    | .ok verified =>
      let arts := artifactsOf ty tc.add_decoy_claims tc
        (issuerStage true settings tc entropy) hRun verified fmt
      .ok { issuer_run := issuerStage true settings tc entropy
            holder_run := hRun
            verified := verified
            artifacts := arts
            files := writeArtifacts (formatterOf ty fmt) arts }) = _
  rw [hv]

/-- What `generate_test_case_data` returns, spelled out (definitional). -/
theorem generate_snd (gs : GlobalState) (settings : Settings) (tc : Testcase)
    (ty : GType) (fmt : Formatting) (entropy : Nat) :
    (generate_test_case_data gs settings tc ty fmt entropy).2 =
      (match holderStage settings tc (issuerStage true settings tc entropy) with
       | .error e => .error (.holderError e)
       | .ok hRun =>
         match verifierStage settings tc hRun with
         | .error e => .error (.verifierError e)
         | .ok verified =>
           .ok { issuer_run := issuerStage true settings tc entropy
                 holder_run := hRun
                 verified := verified
                 artifacts := artifactsOf ty tc.add_decoy_claims tc
                   (issuerStage true settings tc entropy) hRun verified fmt
                 files := writeArtifacts (formatterOf ty fmt)
                   (artifactsOf ty tc.add_decoy_claims tc
                     (issuerStage true settings tc entropy) hRun verified fmt) }) := rfl

/-- The Holder-Binding check only looks at the Holder-Binding Object and the
`cnf` reference of the payload. -/
theorem checkBinding_congr (p1 p2 : SDPayload) (ik : Nat)
    (presented : List Disclosure) (hb : Option HBJwt) (expAud expNonce : Option String)
    (hcnf : p1.cnf = p2.cnf) :
    checkBinding ⟨⟨p1, ik⟩, presented, hb⟩ expAud expNonce =
      checkBinding ⟨⟨p2, ik⟩, presented, hb⟩ expAud expNonce := by
  unfold checkBinding
  simp only [hcnf]

/-- Verification does not depend on the part of the top-level placeholder
list whose resolution agrees: two payloads with the same plain entries, the
same `cnf` and placeholder lists resolving alike verify alike. -/
theorem get_verified_payload_congr (p1 p2 : SDPayload) (ik : Nat)
    (presented : List Disclosure) (hb : Option HBJwt)
    (cb : String → Except String Nat) (expAud expNonce : Option String)
    (now : Option Int) (ents : List (String × PVal)) (sd1 sd2 : List Digest)
    (h1 : p1.claims = .pobj ents sd1) (h2 : p2.claims = .pobj ents sd2)
    (hcnf : p1.cnf = p2.cnf)
    (hsd : rsSd (mkIndex presented) sd1 = rsSd (mkIndex presented) sd2) :
    get_verified_payload ⟨⟨p1, ik⟩, presented, hb⟩ cb expAud expNonce now =
      get_verified_payload ⟨⟨p2, ik⟩, presented, hb⟩ cb expAud expNonce now := by
  have hrs : rsVal (mkIndex presented) (.pobj ents sd1) =
      rsVal (mkIndex presented) (.pobj ents sd2) := by
    rw [rsVal_pobj, rsVal_pobj, hsd]
  have hbd : checkBinding ⟨⟨p1, ik⟩, presented, hb⟩ expAud expNonce =
      checkBinding ⟨⟨p2, ik⟩, presented, hb⟩ expAud expNonce :=
    checkBinding_congr p1 p2 ik presented hb expAud expNonce hcnf
  unfold get_verified_payload
  simp only [h1, h2, hrs, hbd]

/-! ## Claim theorems -/

/-- C3: the issuer-key resolution callback fails loudly on unknown issuers:
for every issuer identifier distinct from the issued `iss` claim,
`cb_get_issuer_key` raises (modelled as `Except.error`, never a null
return), and for the identifier equal to the issued `iss` claim it returns
the issuer's public key. -/
theorem C3_cb_fails_loudly (claims : List (String × Val)) (demo_keys : DemoKeys)
    (s0 : String) (hiss : claims.lookup "iss" = some (.vstr s0)) :
    (∀ issuer : String, issuer ≠ s0 →
      cb_get_issuer_key claims demo_keys issuer =
        .error ("Unknown issuer: " ++ issuer)) ∧
    cb_get_issuer_key claims demo_keys s0 = .ok demo_keys.issuer_public_key := by
  constructor
  · intro issuer hne
    have hne' : ¬(claims.lookup "iss" = some (.vstr issuer)) := by
      rw [hiss]
      intro h
      injection h with h
      injection h with h
      exact hne h.symm
    unfold cb_get_issuer_key
    rw [if_neg hne']
  · unfold cb_get_issuer_key
    rw [if_pos hiss]

/-- Witness for C3 at the concrete sample settings and test case. -/
theorem C3_cb_fails_loudly_witness :
    (mergedClaims sampleSettings sampleTestcase.user_claims).lookup "iss" =
      some (.vstr "https://example.com/issuer") ∧
    ((∀ issuer : String, issuer ≠ "https://example.com/issuer" →
        cb_get_issuer_key (mergedClaims sampleSettings sampleTestcase.user_claims)
          (get_jwk sampleSettings.random_seed) issuer =
          .error ("Unknown issuer: " ++ issuer)) ∧
      cb_get_issuer_key (mergedClaims sampleSettings sampleTestcase.user_claims)
        (get_jwk sampleSettings.random_seed) "https://example.com/issuer" =
        .ok (get_jwk sampleSettings.random_seed).issuer_public_key) :=
  ⟨by decide, C3_cb_fails_loudly _ _ _ (by decide)⟩

/-- C6 counterexample: with a test case whose `user_claims` contain an `iss`
key, the claim set handed to the Issuer Engine does not carry the
settings-supplied issuer identifier under `iss` — `dict.update` lets the
user claim override it.  The claim as stated is false at this input. -/
theorem C6_counterexample :
    ¬ ((mergedClaims sampleSettings overrideTestcase.user_claims).lookup "iss" =
        some (.vstr sampleSettings.issuer)) := by
  decide

/-- `dict.update` semantics of the merged claim set: the registered keys are
always present, with the settings value unless the user claims override. -/
theorem merged_registered_lookup (settings : Settings) (user : List (String × Val)) :
    (mergedClaims settings user).lookup "iss" =
      some ((user.lookup "iss").getD (.vstr settings.issuer)) ∧
    (mergedClaims settings user).lookup "iat" =
      some ((user.lookup "iat").getD (.vnum settings.iat)) ∧
    (mergedClaims settings user).lookup "exp" =
      some ((user.lookup "exp").getD (.vnum settings.exp)) := by
  have hm : mergedClaims settings user =
      ("iss", (user.lookup "iss").getD (.vstr settings.issuer)) ::
      ("iat", (user.lookup "iat").getD (.vnum settings.iat)) ::
      ("exp", (user.lookup "exp").getD (.vnum settings.exp)) ::
      user.filter (fun kv => !(["iss", "iat", "exp"].contains kv.1)) := rfl
  rw [hm]
  refine ⟨lookup_cons_self _ _ _, ?_, ?_⟩
  · rw [lookup_cons_ne _ _ _ _ (by decide)]
    exact lookup_cons_self _ _ _
  · rw [lookup_cons_ne _ _ _ _ (by decide), lookup_cons_ne _ _ _ _ (by decide)]
    exact lookup_cons_self _ _ _

/-- C6 amended: the claim set handed to the Issuer Engine always contains the
keys `iss`, `iat` and `exp`; each carries the settings-supplied value unless
the test case's user claims provide the same key, in which case the user
value overrides it (`dict.update` semantics of lines 36–42). -/
theorem C6_amended_registered_claims (settings : Settings) (user : List (String × Val)) :
    (mergedClaims settings user).lookup "iss" =
      some ((user.lookup "iss").getD (.vstr settings.issuer)) ∧
    (mergedClaims settings user).lookup "iat" =
      some ((user.lookup "iat").getD (.vnum settings.iat)) ∧
    (mergedClaims settings user).lookup "exp" =
      some ((user.lookup "exp").getD (.vnum settings.exp)) :=
  merged_registered_lookup settings user

/-- C7 counterexample: `generate_test_case_data` mutates the class-level
`SDJWTIssuer.unsafe_randomness` flag (the process-wide state after a run
differs from the initial state), and the Issuer Engine's output depends on
that flag: the same test case issued under the two flag values yields
different signed payloads.  The claim that no Engine invocation depends on
or mutates process-wide mutable state is false at this input. -/
theorem C7_counterexample :
    (generate_test_case_data ⟨false⟩ sampleSettings sampleTestcase .testcase
        sampleFormatting 99).1 ≠ ⟨false⟩ ∧
    (issuerStage true sampleSettings sampleTestcase 99).sd_jwt_payload ≠
      (issuerStage false sampleSettings sampleTestcase 99).sd_jwt_payload := by
  constructor
  · intro h
    have : (true : Bool) = false := congrArg GlobalState.unsafe_randomness h
    cases this
  · decide

/-- C7 amended: the Issuer Engine receives its claim set, keys and decoy
configuration as explicit construction arguments, but the randomness mode is
process-wide mutable state: `generate_test_case_data` sets the class-level
`SDJWTIssuer.unsafe_randomness` flag to `True` on every run (line 45), and
issuance reads that flag (it selects the salt source), as the concrete
flag-dependence of the signed payload shows. -/
theorem C7_amended_global_flag :
    (∀ (gs : GlobalState) (settings : Settings) (tc : Testcase) (ty : GType)
        (fmt : Formatting) (entropy : Nat),
      ((generate_test_case_data gs settings tc ty fmt entropy).1).unsafe_randomness
        = true) ∧
    (issuerStage true sampleSettings sampleTestcase 99).sd_jwt_payload ≠
      (issuerStage false sampleSettings sampleTestcase 99).sd_jwt_payload := by
  constructor
  · intro gs settings tc ty fmt entropy
    rfl
  · decide

/-- C2: the processing pipeline is strict: the Holder stage reads nothing of
the Issuer Engine but its combined issuance artifact (equal artifacts give
equal Holder results), the Verifier stage reads nothing of the Holder
Engine but its combined presentation artifact, and the verified claim set
produced by `generate_test_case_data` is exactly the composition
raw claims → Issuer → artifact → Holder → artifact → Verifier. -/
theorem C2_strict_pipeline (gs : GlobalState) (settings : Settings) (tc : Testcase)
    (ty : GType) (fmt : Formatting) (entropy : Nat)
    (i1 i2 : IssuerRun) (h1 h2 : HolderRun)
    (hi : i1.combined_sd_jwt_iid = i2.combined_sd_jwt_iid)
    (hh : h1.combined_presentation = h2.combined_presentation) :
    holderStage settings tc i1 = holderStage settings tc i2 ∧
    verifierStage settings tc h1 = verifierStage settings tc h2 ∧
    (generate_test_case_data gs settings tc ty fmt entropy).2.map GenOutput.verified =
      (match holderStage settings tc (issuerStage true settings tc entropy) with
       | .error e => .error (.holderError e)
       | .ok hRun =>
         match verifierStage settings tc hRun with
         | .error e => .error (.verifierError e)
         | .ok v => .ok v) := by
  refine ⟨by unfold holderStage; rw [hi], by unfold verifierStage; rw [hh], ?_⟩
  rw [generate_snd]
  cases hc1 : holderStage settings tc (issuerStage true settings tc entropy) with
  | error e => rfl
  | ok hRun =>
    show Except.map GenOutput.verified
      (match verifierStage settings tc hRun with
       | .error e => (.error (.verifierError e) : Except GErr GenOutput)
       | .ok verified =>
         .ok { issuer_run := issuerStage true settings tc entropy
               holder_run := hRun
               verified := verified
               artifacts := artifactsOf ty tc.add_decoy_claims tc
                 (issuerStage true settings tc entropy) hRun verified fmt
               files := writeArtifacts (formatterOf ty fmt)
                 (artifactsOf ty tc.add_decoy_claims tc
                   (issuerStage true settings tc entropy) hRun verified fmt) }) =
      (match verifierStage settings tc hRun with
       | .error e => (.error (.verifierError e) : Except GErr Val)
       | .ok v => .ok v)
    cases hc2 : verifierStage settings tc hRun with
    | error e => rfl
    | ok v => rfl

/-- Witness for C2 at concrete inputs (equal artifacts trivially). -/
theorem C2_strict_pipeline_witness :
    (issuerStage true sampleSettings sampleTestcase 0).combined_sd_jwt_iid =
      (issuerStage true sampleSettings sampleTestcase 0).combined_sd_jwt_iid ∧
    (⟨⟨⟨⟨.pnull, "", none⟩, 0⟩, [], none⟩, "", none, none, [], []⟩ :
        HolderRun).combined_presentation =
      (⟨⟨⟨⟨.pnull, "", none⟩, 0⟩, [], none⟩, "", none, none, [], []⟩ :
        HolderRun).combined_presentation ∧
    (holderStage sampleSettings sampleTestcase
        (issuerStage true sampleSettings sampleTestcase 0) =
      holderStage sampleSettings sampleTestcase
        (issuerStage true sampleSettings sampleTestcase 0) ∧
     verifierStage sampleSettings sampleTestcase
        (⟨⟨⟨⟨.pnull, "", none⟩, 0⟩, [], none⟩, "", none, none, [], []⟩ : HolderRun) =
      verifierStage sampleSettings sampleTestcase
        (⟨⟨⟨⟨.pnull, "", none⟩, 0⟩, [], none⟩, "", none, none, [], []⟩ : HolderRun) ∧
     (generate_test_case_data ⟨false⟩ sampleSettings sampleTestcase .testcase
          sampleFormatting 0).2.map GenOutput.verified =
       (match holderStage sampleSettings sampleTestcase
            (issuerStage true sampleSettings sampleTestcase 0) with
        | .error e => .error (.holderError e)
        | .ok hRun =>
          match verifierStage sampleSettings sampleTestcase hRun with
          | .error e => .error (.verifierError e)
          | .ok v => .ok v)) :=
  ⟨rfl, rfl,
    C2_strict_pipeline ⟨false⟩ sampleSettings sampleTestcase .testcase sampleFormatting 0
      _ _ _ _ rfl rfl⟩

/-- C5: when a test case does not enable holder binding, the Holder's
`create_presentation` is invoked with nonce, audience and Holder key all
`None`, the Verifier is constructed with expected audience and expected
nonce `None`, no Holder-Binding Object is present in the presentation, and
verification still succeeds and returns a verified payload. -/
theorem C5_absent_binding_is_valid (gs : GlobalState) (settings : Settings)
    (tc : Testcase) (ty : GType) (fmt : Formatting) (entropy : Nat) (s : String)
    (hnb : tc.holder_binding = false)
    (hiss : (mergedClaims settings tc.user_claims).lookup "iss" = some (.vstr s)) :
    (if tc.holder_binding then some settings.holder_binding_nonce else none) = none ∧
    (if tc.holder_binding then some settings.verifier else none) = none ∧
    (if tc.holder_binding then some (get_jwk settings.random_seed).holder_key
      else none) = none ∧
    ∃ hRun verified,
      holderStage settings tc (issuerStage true settings tc entropy) = .ok hRun ∧
      hRun.combined_presentation.hb = none ∧
      verifierStage settings tc hRun = .ok verified ∧
      ∃ out, (generate_test_case_data gs settings tc ty fmt entropy).2 = .ok out ∧
        out.verified = verified := by
  obtain ⟨hRun, verified, hh, hhb, hv, hgen⟩ :=
    generate_ok gs settings tc ty fmt entropy s hiss
  rw [hnb] at hhb
  refine ⟨by rw [hnb]; rfl, by rw [hnb]; rfl, by rw [hnb]; rfl, hRun, verified, hh,
    hhb.trans rfl, hv, _, hgen, rfl⟩

/-- Witness for C5 at the concrete sample test case without binding. -/
theorem C5_absent_binding_is_valid_witness :
    sampleTestcase.holder_binding = false ∧
    (mergedClaims sampleSettings sampleTestcase.user_claims).lookup "iss" =
      some (.vstr "https://example.com/issuer") ∧
    ((if sampleTestcase.holder_binding then some sampleSettings.holder_binding_nonce
       else none) = none ∧
     (if sampleTestcase.holder_binding then some sampleSettings.verifier
       else none) = none ∧
     (if sampleTestcase.holder_binding
       then some (get_jwk sampleSettings.random_seed).holder_key else none) = none ∧
     ∃ hRun verified,
       holderStage sampleSettings sampleTestcase
          (issuerStage true sampleSettings sampleTestcase 7) = .ok hRun ∧
       hRun.combined_presentation.hb = none ∧
       verifierStage sampleSettings sampleTestcase hRun = .ok verified ∧
       ∃ out, (generate_test_case_data ⟨false⟩ sampleSettings sampleTestcase .testcase
           sampleFormatting 7).2 = .ok out ∧
         out.verified = verified) :=
  ⟨rfl, by decide,
    C5_absent_binding_is_valid ⟨false⟩ sampleSettings sampleTestcase .testcase
      sampleFormatting 7 "https://example.com/issuer" rfl (by decide)⟩

/-- C10: when a test case's `user_claims` contain an `iss` key, that value
overrides the settings-supplied issuer identifier in the issued claim set,
and verification still succeeds, because the issuer-key callback compares
the queried issuer against `claims["iss"]` read after the merge. -/
theorem C10_user_iss_override (gs : GlobalState) (settings : Settings) (tc : Testcase)
    (ty : GType) (fmt : Formatting) (entropy : Nat) (s : String)
    (hov : tc.user_claims.lookup "iss" = some (.vstr s)) :
    (mergedClaims settings tc.user_claims).lookup "iss" = some (.vstr s) ∧
    cb_get_issuer_key (mergedClaims settings tc.user_claims)
      (get_jwk settings.random_seed) s =
      .ok (get_jwk settings.random_seed).issuer_public_key ∧
    ∃ hRun verified,
      holderStage settings tc (issuerStage true settings tc entropy) = .ok hRun ∧
      verifierStage settings tc hRun = .ok verified ∧
      ∃ out, (generate_test_case_data gs settings tc ty fmt entropy).2 = .ok out ∧
        out.verified = verified := by
  have hiss : (mergedClaims settings tc.user_claims).lookup "iss" = some (.vstr s) := by
    rw [(merged_registered_lookup settings tc.user_claims).1, hov]
    rfl
  obtain ⟨hRun, verified, hh, _, hv, hgen⟩ :=
    generate_ok gs settings tc ty fmt entropy s hiss
  exact ⟨hiss, cb_get_issuer_key_hit settings tc.user_claims s hiss,
    hRun, verified, hh, hv, _, hgen, rfl⟩

/-- Witness for C10 at the concrete override test case. -/
theorem C10_user_iss_override_witness :
    overrideTestcase.user_claims.lookup "iss" =
      some (.vstr "https://other.example/issuer") ∧
    ((mergedClaims sampleSettings overrideTestcase.user_claims).lookup "iss" =
        some (.vstr "https://other.example/issuer") ∧
     cb_get_issuer_key (mergedClaims sampleSettings overrideTestcase.user_claims)
        (get_jwk sampleSettings.random_seed) "https://other.example/issuer" =
        .ok (get_jwk sampleSettings.random_seed).issuer_public_key ∧
     ∃ hRun verified,
       holderStage sampleSettings overrideTestcase
          (issuerStage true sampleSettings overrideTestcase 7) = .ok hRun ∧
       verifierStage sampleSettings overrideTestcase hRun = .ok verified ∧
       ∃ out, (generate_test_case_data ⟨false⟩ sampleSettings overrideTestcase .testcase
           sampleFormatting 7).2 = .ok out ∧
         out.verified = verified) :=
  ⟨by decide,
    C10_user_iss_override ⟨false⟩ sampleSettings overrideTestcase .testcase
      sampleFormatting 7 "https://other.example/issuer" (by decide)⟩

/-- C9: even when holder binding is not enabled, `generate_test_case_data`
still writes an `hb_jwt_payload.json` artifact containing the formatted
`None` value: the writing loop's skip test compares the whole
`(data, description, ftype)` tuple against `None`, and that tuple is never
`None` even when its data element is. -/
theorem C9_hb_artifact_written_without_binding (gs : GlobalState) (settings : Settings)
    (tc : Testcase) (ty : GType) (fmt : Formatting) (entropy : Nat) (s : String)
    (hnb : tc.holder_binding = false)
    (hiss : (mergedClaims settings tc.user_claims).lookup "iss" = some (.vstr s)) :
    ∃ out, (generate_test_case_data gs settings tc ty fmt entropy).2 = .ok out ∧
      ("hb_jwt_payload",
        some (.hbD none, "Payload of the Holder Binding JWT", "json")) ∈ out.artifacts ∧
      ("hb_jwt_payload.json", (formatterOf ty fmt) (.hbD none) "json") ∈ out.files := by
  obtain ⟨hRun, verified, _, _, _, hgen⟩ :=
    generate_ok gs settings tc ty fmt entropy s hiss
  have hmem : ("hb_jwt_payload",
      some (AData.hbD none, "Payload of the Holder Binding JWT", "json")) ∈
      artifactsOf ty tc.add_decoy_claims tc (issuerStage true settings tc entropy)
        hRun verified fmt := by
    unfold artifactsOf
    apply List.mem_append_left
    apply List.mem_append_left
    rw [hnb]
    simp
  refine ⟨_, hgen, hmem, ?_⟩
  show _ ∈ writeArtifacts (formatterOf ty fmt)
    (artifactsOf ty tc.add_decoy_claims tc (issuerStage true settings tc entropy)
      hRun verified fmt)
  unfold writeArtifacts
  apply List.mem_filterMap.mpr
  exact ⟨("hb_jwt_payload",
    some (AData.hbD none, "Payload of the Holder Binding JWT", "json")), hmem, rfl⟩

/-- Witness for C9 at the concrete sample test case without binding. -/
theorem C9_hb_artifact_written_without_binding_witness :
    sampleTestcase.holder_binding = false ∧
    (mergedClaims sampleSettings sampleTestcase.user_claims).lookup "iss" =
      some (.vstr "https://example.com/issuer") ∧
    ∃ out, (generate_test_case_data ⟨false⟩ sampleSettings sampleTestcase .testcase
        sampleFormatting 7).2 = .ok out ∧
      ("hb_jwt_payload",
        some (.hbD none, "Payload of the Holder Binding JWT", "json")) ∈ out.artifacts ∧
      ("hb_jwt_payload.json",
        (formatterOf .testcase sampleFormatting) (.hbD none) "json") ∈ out.files :=
  ⟨rfl, by decide,
    C9_hb_artifact_written_without_binding ⟨false⟩ sampleSettings sampleTestcase
      .testcase sampleFormatting 7 "https://example.com/issuer" rfl (by decide)⟩

/-- C8: after issuance the Issuer Engine exposes the combined issuance
artifact as a string plus structured access to the signed payload, the
serialized signed object and the decoy digest list, and the fixture
generator writes each of them out as an artifact. -/
theorem C8_issuer_artifact_surface (gs : GlobalState) (settings : Settings)
    (tc : Testcase) (fmt : Formatting) (entropy : Nat) (s : String)
    (hiss : (mergedClaims settings tc.user_claims).lookup "iss" = some (.vstr s)) :
    ∃ out, (generate_test_case_data gs settings tc .testcase fmt entropy).2 = .ok out ∧
      out.issuer_run.combined_sd_jwt_iid_str =
        serializeCombinedIssuance out.issuer_run.combined_sd_jwt_iid ∧
      ("sd_jwt_payload",
        some (.payloadD out.issuer_run.sd_jwt_payload, "Payload of the SD-JWT", "json"))
        ∈ out.artifacts ∧
      ("sd_jwt_serialized",
        some (.txtD out.issuer_run.serialized_sd_jwt, "Serialized SD-JWT", "txt"))
        ∈ out.artifacts ∧
      ("combined_issuance",
        some (.txtD out.issuer_run.combined_sd_jwt_iid_str,
          "Combined SD-JWT and Disclosures", "txt")) ∈ out.artifacts ∧
      (tc.add_decoy_claims = true →
        ("decoy_digests",
          some (.digestsD out.issuer_run.decoy_digests, "Decoy Claims", "json"))
          ∈ out.artifacts) := by
  obtain ⟨hRun, verified, _, _, _, hgen⟩ :=
    generate_ok gs settings tc .testcase fmt entropy s hiss
  refine ⟨_, hgen, rfl, ?_, ?_, ?_, ?_⟩
  · unfold artifactsOf
    apply List.mem_append_left
    apply List.mem_append_left
    simp
  · unfold artifactsOf
    apply List.mem_append_left
    apply List.mem_append_left
    simp
  · unfold artifactsOf
    apply List.mem_append_left
    apply List.mem_append_left
    simp
  · intro hdec
    unfold artifactsOf
    apply List.mem_append_right
    rw [hdec]
    simp

/-- Witness for C8 at the concrete sample test case with decoys enabled. -/
theorem C8_issuer_artifact_surface_witness :
    (mergedClaims sampleSettings sampleTestcaseHB.user_claims).lookup "iss" =
      some (.vstr "https://example.com/issuer") ∧
    ∃ out, (generate_test_case_data ⟨false⟩ sampleSettings sampleTestcaseHB .testcase
        sampleFormatting 7).2 = .ok out ∧
      out.issuer_run.combined_sd_jwt_iid_str =
        serializeCombinedIssuance out.issuer_run.combined_sd_jwt_iid ∧
      ("sd_jwt_payload",
        some (.payloadD out.issuer_run.sd_jwt_payload, "Payload of the SD-JWT", "json"))
        ∈ out.artifacts ∧
      ("sd_jwt_serialized",
        some (.txtD out.issuer_run.serialized_sd_jwt, "Serialized SD-JWT", "txt"))
        ∈ out.artifacts ∧
      ("combined_issuance",
        some (.txtD out.issuer_run.combined_sd_jwt_iid_str,
          "Combined SD-JWT and Disclosures", "txt")) ∈ out.artifacts ∧
      (sampleTestcaseHB.add_decoy_claims = true →
        ("decoy_digests",
          some (.digestsD out.issuer_run.decoy_digests, "Decoy Claims", "json"))
          ∈ out.artifacts) :=
  ⟨by decide,
    C8_issuer_artifact_surface ⟨false⟩ sampleSettings sampleTestcaseHB sampleFormatting 7
      "https://example.com/issuer" (by decide)⟩

/-- C1: round-trip law.  For every claim set and every disclosure policy,
issuing (with any number of decoys), having the Holder select every
disclosable claim, and verifying yields a verified claim set equal to the
input claim set — equality of claim sets being Python dict equality,
i.e. equality of the canonical forms `vnorm` (object-key order is not
significant).  The claim set must carry a string `iss` resolvable by the
Verifier's callback to the issuer key, as `generate.py` guarantees. -/
theorem C1_issue_present_verify_roundtrip (pol : Policy) (n sb : Nat)
    (claims : List (String × Val)) (ik : Nat) (hbIat : Int)
    (cb : String → Except String Nat) (s : String)
    (hwf : wfB (.vobj claims) = true)
    (hiss : claims.lookup "iss" = some (.vstr s))
    (hcb : cb s = .ok ik) :
    ∃ hRun w,
      create_presentation (issue pol n sb claims none ik).combined_sd_jwt_iid
        (fun _ => true) none none none hbIat = .ok hRun ∧
      get_verified_payload hRun.combined_presentation cb none none none = .ok w ∧
      vnorm w = vnorm (.vobj claims) := by
  have hsalt : SaltOK sb (sdEnts (restrictRegistered pol) [] sb claims).ds
      (sdEnts (restrictRegistered pol) [] sb claims).c :=
    saltEnts _ [] claims (fun k v _ path' c' => saltVal v _ path' c') sb
  have hndDs : (sdEnts (restrictRegistered pol) [] sb claims).ds.Nodup :=
    saltOK_nodup hsalt
  have hndP : ((sdEnts (restrictRegistered pol) [] sb claims).ds.filter
      (fun _ => true)).Nodup := hndDs.filter _
  have hndPd : (((sdEnts (restrictRegistered pol) [] sb claims).ds.filter
      (fun _ => true)).map digestOf).Nodup := by
    rw [map_digestOf]; exact hndP
  have hmiss : ∀ d ∈ (List.range n).map
      (fun i => decoyDigest ((sdEnts (restrictRegistered pol) [] sb claims).c + i)),
      mkIndex ((sdEnts (restrictRegistered pol) [] sb claims).ds.filter
        (fun _ => true)) d = none := by
    intro d hd
    obtain ⟨i, _, rfl⟩ := List.mem_map.mp hd
    apply mkIndex_eq_none
    intro x hx heq
    have hxm : x ∈ (sdEnts (restrictRegistered pol) [] sb claims).ds :=
      List.mem_of_mem_filter hx
    have hxb := (hsalt.2.1 x hxm).2
    have hxs : x.salt = (sdEnts (restrictRegistered pol) [] sb claims).c + i :=
      congrArg Disclosure.salt heq
    omega
  have hcov : ∀ dis ∈ (sdEnts (restrictRegistered pol) [] sb claims).ds,
      mkIndex ((sdEnts (restrictRegistered pol) [] sb claims).ds.filter
        (fun _ => true)) (digestOf dis) = some dis :=
    fun dis hm => mkIndex_self_mem (List.mem_filter.mpr ⟨hm, rfl⟩)
  obtain ⟨rents, dents, hr, hd, hperm⟩ :=
    rtEnts (restrictRegistered pol) [] claims
      (fun k v _ path' c' DS hwf' hcov' => rtVal v _ path' c' DS hwf' hcov')
      (fun k v hm => wfB_vobj_mem hwf hm) sb
      ((sdEnts (restrictRegistered pol) [] sb claims).ds.filter (fun _ => true)) hcov
  have hres : rsVal (mkIndex ((sdEnts (restrictRegistered pol) [] sb claims).ds.filter
        (fun _ => true)))
      (.pobj (sdEnts (restrictRegistered pol) [] sb claims).out.1
        ((sdEnts (restrictRegistered pol) [] sb claims).out.2 ++
          (List.range n).map
            (fun i => decoyDigest ((sdEnts (restrictRegistered pol) [] sb claims).c + i)))) =
      .ok (.vobj (rents ++ dents)) := by
    rw [rsVal_pobj, hr, rsSd_append_none _ _ hmiss, hd]
  have hlk : (sdEnts (restrictRegistered pol) [] sb claims).out.1.lookup "iss" =
      some (.pstr s) :=
    sdEnts_lookup_vstr _ [] "iss" s claims sb (restrictRegistered_iss pol) hiss
  obtain ⟨hRun, hcp, hcomb, _⟩ :=
    create_presentation_fields_nb (issue pol n sb claims none ik).combined_sd_jwt_iid
      (fun _ => true) hbIat (by rw [issue_cnf]; rfl)
  refine ⟨hRun, .vobj (rents ++ dents), hcp, ?_, ?_⟩
  · rw [hcomb]
    exact get_verified_payload_ok _ ik _ none cb none none _ _ s _
      (issue_claims pol n sb claims none ik) hlk hcb hndPd hres
      (checkBinding_absent _ rfl)
  · rw [vnorm_vobj, vnorm_vobj, normEnts_append]
    have hnd2 : ((normEnts rents ++ normEnts dents).map Prod.fst).Nodup := by
      refine ((hperm.map Prod.fst).nodup_iff).mpr ?_
      rw [map_fst_normEnts]
      exact wfB_vobj_nodup hwf
    rw [sortEnts_eq_of_perm hperm hnd2]

/-- Witness for C1 at concrete inputs: sample claims, default policy, two
decoys, full disclosure. -/
theorem C1_issue_present_verify_roundtrip_witness :
    wfB (.vobj (mergedClaims sampleSettings sampleTestcase.user_claims)) = true ∧
    (mergedClaims sampleSettings sampleTestcase.user_claims).lookup "iss" =
      some (.vstr "https://example.com/issuer") ∧
    (fun q => if q = "https://example.com/issuer" then (.ok 1 : Except String Nat)
      else .error ("Unknown issuer: " ++ q)) "https://example.com/issuer" = .ok 1 ∧
    ∃ hRun w,
      create_presentation
        (issue defaultPolicy 2 0 (mergedClaims sampleSettings sampleTestcase.user_claims)
          none 1).combined_sd_jwt_iid (fun _ => true) none none none 0 = .ok hRun ∧
      get_verified_payload hRun.combined_presentation
        (fun q => if q = "https://example.com/issuer" then (.ok 1 : Except String Nat)
          else .error ("Unknown issuer: " ++ q)) none none none = .ok w ∧
      vnorm w = vnorm (.vobj (mergedClaims sampleSettings sampleTestcase.user_claims)) :=
  ⟨by decide, by decide, rfl,
    C1_issue_present_verify_roundtrip defaultPolicy 2 0
      (mergedClaims sampleSettings sampleTestcase.user_claims) 1 0
      (fun q => if q = "https://example.com/issuer" then (.ok 1 : Except String Nat)
        else .error ("Unknown issuer: " ++ q)) "https://example.com/issuer"
      (by decide) (by decide) rfl⟩

/-- C4: decoy digests leave no trace in the verified claim set: for every
decoy count (including zero and the `add_decoy_claims` configurations), the
whole present-then-verify outcome equals the outcome of the same run issued
with zero decoys, for every Holder selection and Verifier configuration;
and the decoys are exposed to the caller only through the Issuer's
`decoy_digests` attribute, which lists exactly the injected decoys. -/
theorem C4_decoys_never_in_verified (pol : Policy) (n sb : Nat)
    (claims : List (String × Val)) (hp : Option Nat) (ik : Nat)
    (sel : Disclosure → Bool) (nonce aud : Option String) (hkey : Option Nat)
    (hbIat : Int) (cb : String → Except String Nat) (expAud expNonce : Option String)
    (now : Option Int) :
    presentAndVerify (issue pol n sb claims hp ik).combined_sd_jwt_iid sel nonce aud
        hkey hbIat cb expAud expNonce now =
      presentAndVerify (issue pol 0 sb claims hp ik).combined_sd_jwt_iid sel nonce aud
        hkey hbIat cb expAud expNonce now ∧
    (issue pol n sb claims hp ik).decoy_digests.length = n := by
  constructor
  · have hsalt : SaltOK sb (sdEnts (restrictRegistered pol) [] sb claims).ds
        (sdEnts (restrictRegistered pol) [] sb claims).c :=
      saltEnts _ [] claims (fun k v _ path' c' => saltVal v _ path' c') sb
    have hmiss : ∀ d ∈ (List.range n).map
        (fun i => decoyDigest ((sdEnts (restrictRegistered pol) [] sb claims).c + i)),
        mkIndex ((sdEnts (restrictRegistered pol) [] sb claims).ds.filter sel) d
          = none := by
      intro d hd
      obtain ⟨i, _, rfl⟩ := List.mem_map.mp hd
      apply mkIndex_eq_none
      intro x hx heq
      have hxm : x ∈ (sdEnts (restrictRegistered pol) [] sb claims).ds :=
        List.mem_of_mem_filter hx
      have hxb := (hsalt.2.1 x hxm).2
      have hxs : x.salt = (sdEnts (restrictRegistered pol) [] sb claims).c + i :=
        congrArg Disclosure.salt heq
      omega
    have hmiss0 : ∀ d ∈ (List.range 0).map
        (fun i => decoyDigest ((sdEnts (restrictRegistered pol) [] sb claims).c + i)),
        mkIndex ((sdEnts (restrictRegistered pol) [] sb claims).ds.filter sel) d
          = none := by
      intro d hd
      rw [List.range_zero, List.map_nil] at hd
      cases hd
    have hsd : rsSd (mkIndex ((sdEnts (restrictRegistered pol) [] sb claims).ds.filter sel))
        ((sdEnts (restrictRegistered pol) [] sb claims).out.2 ++
          (List.range n).map
            (fun i => decoyDigest ((sdEnts (restrictRegistered pol) [] sb claims).c + i))) =
        rsSd (mkIndex ((sdEnts (restrictRegistered pol) [] sb claims).ds.filter sel))
        ((sdEnts (restrictRegistered pol) [] sb claims).out.2 ++
          (List.range 0).map
            (fun i => decoyDigest ((sdEnts (restrictRegistered pol) [] sb claims).c + i))) := by
      rw [rsSd_append_none _ _ hmiss, rsSd_append_none _ _ hmiss0]
    have hgv : get_verified_payload
        ⟨(issue pol n sb claims hp ik).combined_sd_jwt_iid.signed,
          (issue pol n sb claims hp ik).combined_sd_jwt_iid.disclosures.filter sel,
          match nonce, aud, hkey with
          | some nn, some a, some k => some ⟨⟨nn, a, hbIat⟩, k⟩
          | _, _, _ => none⟩ cb expAud expNonce now =
        get_verified_payload
        ⟨(issue pol 0 sb claims hp ik).combined_sd_jwt_iid.signed,
          (issue pol 0 sb claims hp ik).combined_sd_jwt_iid.disclosures.filter sel,
          match nonce, aud, hkey with
          | some nn, some a, some k => some ⟨⟨nn, a, hbIat⟩, k⟩
          | _, _, _ => none⟩ cb expAud expNonce now :=
      get_verified_payload_congr
        (issue pol n sb claims hp ik).combined_sd_jwt_iid.signed.payload
        (issue pol 0 sb claims hp ik).combined_sd_jwt_iid.signed.payload
        ik ((sdEnts (restrictRegistered pol) [] sb claims).ds.filter sel)
        (match nonce, aud, hkey with
         | some nn, some a, some k => some ⟨⟨nn, a, hbIat⟩, k⟩
         | _, _, _ => none) cb expAud expNonce now
        (sdEnts (restrictRegistered pol) [] sb claims).out.1 _ _
        (issue_claims pol n sb claims hp ik) (issue_claims pol 0 sb claims hp ik)
        rfl hsd
    unfold presentAndVerify create_presentation
    rw [issue_cnf pol n sb claims hp ik, issue_cnf pol 0 sb claims hp ik]
    cases hcond : (hp.isSome && hkey.isNone) with
    | true => rfl
    | false =>
      exact congrArg
        (fun z : Except VErr Val =>
          match z with
          | Except.error e => (Except.error (GErr.verifierError e) : Except GErr Val)
          | Except.ok v => Except.ok v) hgv
  · rw [issue_decoy_digests, List.length_map, List.length_range]

end SDJWT
